import Mathlib

set_option maxRecDepth 8000

/-!
Shallow embedding of the answer-synthesis pipeline of
telegram_lmstudio_brave_bot (bot.py, memory.py).

Python strings are modelled as Lean `String`/`List Char`; regex scans are
implemented as explicit left-to-right non-overlapping matchers that follow
the Python `re` semantics of the concrete patterns used by the source.
External effects (language-model calls, web search, page fetches) are
modelled as oracles passed in as parameters; the number of model calls a
stage consumes is tracked explicitly.  The durable turn store is modelled
as the list of markdown lines of a single chat's file (all writes of one
day, which is how every claim exercises it).
-/

/-- Python `str` whitespace test restricted to the ASCII whitespace
characters (space, tab, LF, CR, VT, FF), which are the only whitespace
characters the modelled texts contain. -/
def isWsChar (c : Char) : Bool :=
  c = ' ' || c = '\t' || c = '\n' || c = '\r' || c.toNat = 11 || c.toNat = 12

/-- Python `str.strip()` on a character list. -/
def stripChars (l : List Char) : List Char :=
  ((l.dropWhile isWsChar).reverse.dropWhile isWsChar).reverse

/-- Python `str.strip()`. -/
def pyStrip (s : String) : String := ⟨stripChars s.toList⟩

/-- Python `str.rstrip()`. -/
def pyRstrip (s : String) : String := ⟨(s.toList.reverse.dropWhile isWsChar).reverse⟩

/-- Python `str.lower()` (identity on the CJK characters that occur here,
ASCII letters lowercased). -/
def pyLower (s : String) : String := ⟨s.toList.map Char.toLower⟩

/-- Contiguous-sublist test (`pat` occurs inside `l`). -/
def infixOf (pat : List Char) : List Char → Bool
  | [] => pat.isEmpty
  | c :: rest => pat.isPrefixOf (c :: rest) || infixOf pat rest

/-- Python `pat in s` substring containment. -/
def containsSub (s pat : String) : Bool := infixOf pat.toList s.toList

/-- Python `str.splitlines()` for texts whose line breaks are `\n`, `\r`
or `\r\n` (the breaks produced anywhere in this program). -/
def splitLinesAux : List Char → List Char → List (List Char)
  | [], acc => if acc.isEmpty then [] else [acc.reverse]
  | '\r' :: '\n' :: rest, acc => acc.reverse :: splitLinesAux rest []
  | '\r' :: rest, acc => acc.reverse :: splitLinesAux rest []
  | '\n' :: rest, acc => acc.reverse :: splitLinesAux rest []
  | c :: rest, acc => splitLinesAux rest (c :: acc)

/-- Python `str.splitlines()`. -/
def splitLines (s : String) : List String :=
  (splitLinesAux s.toList []).map (fun l => ⟨l⟩)

/-- Python `"\n".join(lines)`. -/
def joinLines : List String → String
  | [] => ""
  | [x] => x
  | x :: rest => x ++ "\n" ++ joinLines rest

/-- Python `str.startswith(("-", "•", "*"))`: the bullet test used by the
news validators. -/
def startsWithBullet (s : String) : Bool :=
  match s.toList with
  | [] => false
  | c :: _ => c = '-' || c = '•' || c = '*'

/-- One step bound `str.replace(pat, rep)`: leftmost non-overlapping
replacement, fuelled by the input length (the fuel is always sufficient
because every step consumes at least one character). -/
def replaceAux (pat rep : List Char) : Nat → List Char → List Char
  | 0, s => s
  | _ + 1, [] => []
  | fuel + 1, c :: rest =>
    if pat ≠ [] && pat.isPrefixOf (c :: rest) then
      rep ++ replaceAux pat rep fuel ((c :: rest).drop pat.length)
    else
      c :: replaceAux pat rep fuel rest

/-- Python `s.replace(pat, rep)` (non-empty `pat`). -/
def pyReplace (s pat rep : String) : String :=
  ⟨replaceAux pat.toList rep.toList s.toList.length s.toList⟩

/-- Decimal digit list of a natural number (Python `str(n)` for `n ≥ 0`),
fuelled recursion on the value. -/
def natReprAux : Nat → Nat → List Char
  | 0, _ => []
  | fuel + 1, n =>
    if n < 10 then [Char.ofNat (48 + n)]
    else natReprAux fuel (n / 10) ++ [Char.ofNat (48 + n % 10)]

/-- Decimal digit list of `n`. -/
def natRepr (n : Nat) : List Char := natReprAux (n + 1) n

/-- Python `str(i)` for an `int` chat id. -/
def intRepr (i : Int) : List Char :=
  if i < 0 then '-' :: natRepr i.natAbs else natRepr i.natAbs

/-- Numeric value of a decimal digit list (how `int(...)` reads the digit
group captured by a regex). -/
def digitsToNat (l : List Char) : Nat :=
  l.foldl (fun a c => a * 10 + (c.toNat - 48)) 0

/-! ## memory.py : MarkdownMemory -/

/-- A turn as returned by `MarkdownMemory.recent_turns`. -/
structure DTurn where
  role : String
  content : String
deriving DecidableEq, Repr

/-- `MarkdownMemory.add_turn`'s escaping of the content before it is
written on a single markdown line:
`content.replace("\r\n", "\n").replace("\r", "\n").replace("\n", "\\n")`. -/
def escapeContent (s : String) : String :=
  pyReplace (pyReplace (pyReplace s "\r\n" "\n") "\r" "\n") "\n" "\\n"

/-- `MarkdownMemory.recent_turns`'s unescaping of a parsed content:
`content.replace("\\n", "\n")`. -/
def unescapeContent (s : String) : String := pyReplace s "\\n" "\n"

/-- The line `MarkdownMemory.add_turn` appends for one turn:
`f"- [{t}] chat:{chat_id} ({role}) {safe}\n"` (without the trailing
newline, which the reader strips again). -/
def turnLine (chatId : Int) (tstr role content : String) : String :=
  "- [" ++ tstr ++ "] chat:" ++ (⟨intRepr chatId⟩ : String) ++ " (" ++ role ++ ") "
    ++ escapeContent content

/-- `MarkdownMemory.add_turn`: append one escaped line to the chat's file. -/
def add_turn (chatId : Int) (tstr role content : String) (store : List String) :
    List String :=
  store ++ [turnLine chatId tstr role content]

/-- Characters admitted by the `[0-9:]{8}` timestamp group of the
turn-line pattern. -/
def isTimeChar (c : Char) : Bool := c.isDigit || c = ':'

/-- `pat` dropped from the front of `l` when it is a prefix, else failure
(one literal piece of the anchored turn-line regex). -/
def dropExact (pat : String) (l : List Char) : Option (List Char) :=
  if pat.toList.isPrefixOf l then some (l.drop pat.toList.length) else none

/-- The anchored pattern
`^- \[[0-9:]{8}\] chat:(-?\d+) \((user|assistant)\) (.*)$` of
`MarkdownMemory.recent_turns`, as a deterministic parser: returns the
chat id, the role and the raw (still escaped) content. -/
def parseTurnLine (line : String) : Option (Int × String × String) :=
  match dropExact "- [" line.toList with
  | none => none
  | some l1 =>
    let ts := l1.take 8
    if ts.length = 8 && ts.all isTimeChar then
      match dropExact "] chat:" (l1.drop 8) with
      | none => none
      | some l2 =>
        let neg := l2.head? = some '-'
        let l3 := if l2.head? = some '-' then l2.tail else l2
        let ds := l3.takeWhile Char.isDigit
        if ds.isEmpty then none
        else
          let cid : Int := if neg then -(digitsToNat ds : Int) else (digitsToNat ds : Int)
          match dropExact " (" (l3.drop ds.length) with
          | none => none
          | some l4 =>
            match dropExact "user) " l4 with
            | some content => some (cid, "user", ⟨content⟩)
            | none =>
              match dropExact "assistant) " l4 with
              | some content => some (cid, "assistant", ⟨content⟩)
              | none => none
    else none

/-- The turns of one chat parsed out of the file lines, contents
unescaped, in file (= arrival) order. -/
def parsedChatTurns (chatId : Int) (store : List String) : List DTurn :=
  store.filterMap (fun ln =>
    match parseTurnLine ln with
    | some (cid, r, c) =>
      if cid = chatId then some ⟨r, unescapeContent c⟩ else none
    | none => none)

/-- `MarkdownMemory.recent_turns`: parse every line, keep this chat's
turns, return the last `limit` of them (`[]` when `limit ≤ 0`). -/
def recent_turns (chatId : Int) (limit : Nat) (store : List String) : List DTurn :=
  let turns := parsedChatTurns chatId store
  if limit = 0 then [] else turns.drop (turns.length - limit)

/-! ## memory.py : profile store (`upsert_profile`) -/

/-- A JSON-ish profile value as stored in `profile.json`. -/
inductive PVal where
  | vNone : PVal
  | vStr : String → PVal
  | vBool : Bool → PVal
deriving DecidableEq, Repr

/-- The values `MarkdownMemory.upsert_profile` skips:
`v is None`, or a string with `not v.strip()`. -/
def pvalSkipped : PVal → Bool
  | .vNone => true
  | .vStr s => pyStrip s = ""
  | .vBool _ => false

/-- Dict lookup. -/
def dictGet (m : List (String × PVal)) (k : String) : Option PVal :=
  (m.find? (fun p => p.1 = k)).map Prod.snd

/-- Dict assignment `m[k] = v` (replace in place or append). -/
def dictSet (m : List (String × PVal)) (k : String) (v : PVal) :
    List (String × PVal) :=
  if m.any (fun p => p.1 = k) then
    m.map (fun p => if p.1 = k then (k, v) else p)
  else m ++ [(k, v)]

/-- `MarkdownMemory.upsert_profile`: start from the stored profile and
assign each update whose value is neither `None` nor a blank string. -/
def upsert_profile (base updates : List (String × PVal)) : List (String × PVal) :=
  updates.foldl
    (fun merged kv => if pvalSkipped kv.2 then merged else dictSet merged kv.1 kv.2)
    base

/-! ## bot.py : retrieval data and keyword predicates -/

/-- A Brave search result (the dict shape used throughout bot.py). -/
structure SearchResult where
  title : String
  url : String
  description : String
deriving DecidableEq, Repr

/-- A fetched page (`{"title", "url", "text"}`); empty `text` means the
fetch failed or the URL was rejected. -/
structure FetchedPage where
  title : String
  url : String
  text : String
deriving DecidableEq, Repr

/-- `any(k in t for k in keywords)` over the lowercased text. -/
def anyKeywordLower (userText : String) (ks : List String) : Bool :=
  ks.any (fun k => containsSub (pyLower userText) k)

/-- `_wants_links`. -/
def wants_links (userText : String) : Bool :=
  anyKeywordLower userText
    ["連結", "链接", "網址", "网址", "url", "link", "來源", "来源", "source"]

/-- `_is_weather_question`. -/
def is_weather_question (userText : String) : Bool :=
  anyKeywordLower userText
    ["天氣", "天气", "氣象", "氣温", "气温", "溫度", "温度", "降雨", "下雨",
     "雷雨", "颱風", "台风", "降雨機率", "降雨概率"]

/-- `_is_recent_news_query`: a recency marker and a news/market marker
must both occur. -/
def is_recent_news_query (userText : String) : Bool :=
  anyKeywordLower userText
    ["最近", "近日", "最新", "近幾日", "近几日", "這幾天", "这几天", "24小時", "24小时"]
  && anyKeywordLower userText
    ["新聞", "新闻", "news", "軍演", "军演", "海域", "時事", "时事", "快訊", "快讯",
     "財經", "财经", "金融", "股市", "指數", "指数", "道瓊", "道琼", "dow jones",
     "nasdaq", "s&p", "sp500"]

/-- `_is_market_index_query`. -/
def is_market_index_query (userText : String) : Bool :=
  anyKeywordLower userText
    ["道瓊", "道琼", "dow jones", "djia", "納斯達克", "纳斯达克", "nasdaq", "s&p",
     "sp500", "指數", "指数", "股市", "美股"]

/-- `_should_force_web_search`. -/
def should_force_web_search (userText : String) : Bool :=
  anyKeywordLower userText
    ["天氣", "天气", "新聞", "新闻", "news", "軍演", "军演", "海域", "時事", "时事",
     "最近", "近日", "氣象", "温度", "溫度", "下雨", "降雨", "雷雨", "颱風", "台风",
     "即時", "实时", "今天", "現在", "目前", "最新"]

/-- The inline `is_news` keyword test of `on_message`. -/
def is_news_query (userText : String) : Bool :=
  anyKeywordLower userText
    ["新聞", "新闻", "news", "headline", "頭條", "头条", "兩岸", "两岸", "國際",
     "国际", "財經", "财经", "金融", "finance"]

/-- `_is_weather_refusal`. -/
def is_weather_refusal (text : String) : Bool :=
  anyKeywordLower text
    ["無法提供最新", "无法提供最新", "無法提供即時", "无法提供实时", "cannot provide",
     "can't provide", "unable to provide", "無法查詢", "无法查询"]

/-- `_SIMPLIFIED_ONLY_MARKERS`. -/
def simplifiedMarkers : List Char :=
  ['这', '个', '为', '对', '后', '们', '来', '时', '于', '国', '军', '关', '里',
   '实', '预', '报', '无', '并']

/-- `_looks_simplified_chinese`: at least two marker-character hits. -/
def looks_simplified_chinese (text : String) : Bool :=
  2 ≤ (text.toList.filter (fun c => simplifiedMarkers.contains c)).length

/-! ## bot.py : locations and the weather clarification -/

/-- `_TW_LOCATIONS` (the Python set, written in source order; only
membership is ever observable through the claims). -/
def TW_LOCATIONS : List String :=
  ["台北", "臺北", "新北", "基隆", "桃園", "新竹", "苗栗", "台中", "臺中", "彰化",
   "南投", "雲林", "嘉義", "台南", "臺南", "高雄", "屏東", "宜蘭", "花蓮", "台東",
   "臺東", "澎湖", "金門", "馬祖"]

/-- `_normalize_location`: strip, then drop one trailing 市/縣. -/
def normalize_location (loc : String) : String :=
  let t := (pyStrip loc).toList
  if t.getLast? = some '市' || t.getLast? = some '縣' then ⟨t.dropLast⟩ else ⟨t⟩

/-- `_is_tw_location`. -/
def is_tw_location (loc : String) : Bool :=
  (TW_LOCATIONS.map normalize_location).contains (pyStrip (normalize_location loc))

/-- CJK test for the `[一-鿿]` character class. -/
def isCJKChar (c : Char) : Bool := 0x4e00 ≤ c.toNat && c.toNat ≤ 0x9fff

/-- Does one of the alternation's nouns start here? -/
def nounAt (nouns : List String) (l : List Char) : Bool :=
  nouns.any (fun n => n.toList.isPrefixOf l)

/-- Lazy group `([一-鿿]{lo,hi}?)` followed by a noun from the
alternation: the shortest all-CJK prefix of length in `[lo, hi]` that is
immediately followed by a noun. -/
def lazyGroup (nouns : List String) (lo hi : Nat) (l : List Char) : Option (List Char) :=
  (List.range (hi + 1 - lo)).findSome? (fun d =>
    let k := lo + d
    let g := l.take k
    if g.length = k && g.all isCJKChar && nounAt nouns (l.drop k) then some g else none)

/-- Weather nouns of `_extract_tw_location`'s first pattern. -/
def locNouns1 : List String := ["天氣", "天气", "氣象", "气象", "降雨", "溫度", "温度"]

/-- Weather nouns of `_extract_tw_location`'s second pattern. -/
def locNouns2 : List String :=
  ["天氣", "天气", "氣象", "气象", "降雨機率", "降雨", "溫度", "温度"]

/-- Leftmost match of `的([一-鿿]{1,20}?)(?:天氣|…)`: scan for a
的 whose following text admits the lazy group. -/
def pat1SearchAux : Nat → List Char → Option (List Char)
  | 0, _ => none
  | _ + 1, [] => none
  | fuel + 1, c :: rest =>
    if c = '的' then
      match lazyGroup locNouns1 1 20 rest with
      | some g => some g
      | none => pat1SearchAux fuel rest
    else pat1SearchAux fuel rest

/-- The optional time words of the second location pattern. -/
def timeWords : List String := ["今天", "今日", "目前", "現在", "最新"]

/-- One attempt of
`(?:今天|今日|目前|現在|最新)?\s*([一-鿿]{2,20}?)(?:天氣|…)` at the
current position: the greedy optional word is tried first, then the
position without it. -/
def pat2At (l : List Char) : Option (List Char) :=
  match timeWords.findSome? (fun w =>
      if w.toList.isPrefixOf l then
        lazyGroup locNouns2 2 20 ((l.drop w.toList.length).dropWhile isWsChar)
      else none) with
  | some g => some g
  | none => lazyGroup locNouns2 2 20 (l.dropWhile isWsChar)

/-- Leftmost match of the second location pattern. -/
def pat2SearchAux : Nat → List Char → Option (List Char)
  | 0, _ => none
  | _ + 1, [] => none
  | fuel + 1, c :: rest =>
    match pat2At (c :: rest) with
    | some g => some g
    | none => pat2SearchAux fuel rest

/-- The junk heads removed from a location candidate
(`^(我想問|請問|想問|幫我查|查一下|查詢)`, alternation order preserved). -/
def leadJunk : List String := ["我想問", "請問", "想問", "幫我查", "查一下", "查詢"]

/-- Remove one leading junk head. -/
def stripLeadJunk (l : List Char) : List Char :=
  match leadJunk.findSome? (fun w =>
      if w.toList.isPrefixOf l then some (l.drop w.toList.length) else none) with
  | some r => r
  | none => l

/-- Candidate post-processing of `_extract_tw_location`: strip junk head,
strip, delete every 的, strip. -/
def postProcessCand (g : List Char) : String :=
  pyStrip (pyReplace (pyStrip ⟨stripLeadJunk g⟩) "的" "")

/-- The stop words a candidate must avoid. -/
def locStopWords : List String := ["今天", "今日", "目前", "現在", "最新", "天氣", "天气"]

/-- `_extract_tw_location`: known locations first, then the two generic
patterns, each with candidate filtering; empty string when nothing
resolves. -/
def extract_tw_location (userText : String) : String :=
  match TW_LOCATIONS.find? (fun loc => containsSub userText loc) with
  | some loc => loc
  | none =>
    let l := userText.toList
    let fromPat : Option (List Char) → Option String := fun g? =>
      match g? with
      | some g =>
        let cand := postProcessCand g
        if cand ≠ "" && !(locStopWords.contains cand) then some cand else none
      | none => none
    match fromPat (pat1SearchAux l.length l) with
    | some c => c
    | none =>
      match fromPat (pat2SearchAux l.length l) with
      | some c => c
      | none => ""

/-! ## bot.py : follow-up continuation -/

/-- The closed phrase set of `_is_followup_continue`. -/
def followupExact : List String :=
  ["繼續", "继续", "更多", "再來", "再給", "再多", "再多列", "再多幾條", "再多幾則",
   "再多一點", "再多一些", "more", "continue"]

/-- Heads of the alternation `(再|再多|更多|繼續|继续)`. -/
def followupHeads : List String := ["再", "再多", "更多", "繼續", "继续"]

/-- `.{0,6}(\d{1,2})` after a head: a digit within the next 7 characters
with no newline before it. -/
def gapDigitHit (l : List Char) : Bool :=
  (List.range 7).any (fun j =>
    match (l.drop j).head? with
    | some d => d.isDigit && (l.take j).all (fun c => c ≠ '\n')
    | none => false)

/-- Search of `(再|再多|更多|繼續|继续).{0,6}(\d{1,2})`. -/
def followRegexAux : Nat → List Char → Bool
  | 0, _ => false
  | _ + 1, [] => false
  | fuel + 1, c :: rest =>
    (followupHeads.any (fun h =>
        h.toList.isPrefixOf (c :: rest) && gapDigitHit ((c :: rest).drop h.toList.length)))
      || followRegexAux fuel rest

/-- `_is_followup_continue`. -/
def is_followup_continue (userText : String) : Bool :=
  let t := pyLower (pyStrip userText)
  if t = "" then false
  else if followupExact.contains t then true
  else followRegexAux t.toList.length t.toList

/-- Leftmost `(\d{1,2})` of `_extract_followup_count`: first digit
position, greedily two digits. -/
def firstIntAux : Nat → List Char → Option Nat
  | 0, _ => none
  | _ + 1, [] => none
  | fuel + 1, c :: rest =>
    if c.isDigit then
      match rest.head? with
      | some d => if d.isDigit then some (digitsToNat [c, d]) else some (digitsToNat [c])
      | none => some (digitsToNat [c])
    else firstIntAux fuel rest

/-- `_extract_followup_count`: the first 1–2 digit integer anywhere in
the text, defaulted and clamped into `[1, maxN]`. -/
def extract_followup_count (userText : String) (default maxN : Nat) : Nat :=
  match firstIntAux userText.toList.length userText.toList with
  | none => max 1 (min default maxN)
  | some n => max 1 (min n maxN)

/-! ## bot.py : years and the stale-year check -/

/-- Non-overlapping scan of `(20\d{2})年?`: every left-to-right match's
captured four-digit year (the optional 年 cannot begin a later match, so
skipping it is immaterial). -/
def yearScanAux : Nat → List Char → List Nat
  | 0, _ => []
  | fuel + 1, '2' :: '0' :: a :: b :: r2 =>
    if a.isDigit && b.isDigit then
      (2000 + 10 * (a.toNat - 48) + (b.toNat - 48)) :: yearScanAux fuel r2
    else yearScanAux fuel ('0' :: a :: b :: r2)
  | fuel + 1, _ :: rest => yearScanAux fuel rest
  | _ + 1, [] => []

/-- Ascending insertion used to mirror Python's `sorted`. -/
def insertSorted (n : Nat) : List Nat → List Nat
  | [] => [n]
  | m :: rest => if n ≤ m then n :: m :: rest else m :: insertSorted n rest

/-- `_extract_years`: the sorted duplicate-free year list. -/
def extract_years (text : String) : List Nat :=
  (yearScanAux text.toList.length text.toList).dedup.foldr insertSorted []

/-- `_contains_stale_year_for_recent`, with the process-local current
year as an explicit parameter. -/
def contains_stale_year_for_recent (currentYear : Nat) (text : String) : Bool :=
  (extract_years text).any (fun y => y ≤ currentYear - 1)

/-! ## bot.py : citation markers -/

/-- Non-overlapping scan of `\[(\d{1,3})\]`: the value of every bracketed
1–3 digit group. -/
def citScanAux : Nat → List Char → List Nat
  | 0, _ => []
  | _ + 1, [] => []
  | fuel + 1, c :: rest =>
    if c = '[' then
      let ds := rest.takeWhile Char.isDigit
      if 1 ≤ ds.length && ds.length ≤ 3 && (rest.drop ds.length).head? == some ']' then
        digitsToNat ds :: citScanAux fuel (rest.drop (ds.length + 1))
      else citScanAux fuel rest
    else citScanAux fuel rest

/-- First-occurrence de-duplication (the `seen` set of the source loops). -/
def dedupFirstAux {α : Type} [DecidableEq α] : List α → List α → List α
  | [], _ => []
  | x :: xs, seen =>
    if x ∈ seen then dedupFirstAux xs seen else x :: dedupFirstAux xs (x :: seen)

/-- All bracketed citation values of `s`. -/
def citsOf (s : String) : List Nat := citScanAux s.toList.length s.toList

/-- `_extract_citation_indices`: in-range citation values in order of
first occurrence. -/
def extract_citation_indices (text : String) (maxIndex : Nat) : List Nat :=
  dedupFirstAux ((citsOf text).filter (fun i => 1 ≤ i && i ≤ maxIndex)) []

/-- The stripped bullet lines of a text
(`[ln.strip() for ln in text.splitlines() if ln.strip().startswith(("-", "•", "*"))]`). -/
def bulletLines (text : String) : List String :=
  ((splitLines text).map pyStrip).filter startsWithBullet

/-- `_news_has_diverse_citations`: with at least three bullets, at least
two distinct in-range citation indices must occur among them. -/
def news_has_diverse_citations (text : String) (maxIndex : Nat) : Bool :=
  let lines := bulletLines text
  if lines.length < 3 then true
  else
    let cited := dedupFirstAux
      ((lines.map (fun ln => (citsOf ln).filter (fun i => 1 ≤ i && i ≤ maxIndex))).flatten) []
    2 ≤ cited.length

/-- `_ensure_bullets`. -/
def ensure_bullets (text : String) : List String :=
  let rawLines := ((splitLines text).filter (fun ln => pyStrip ln ≠ "")).map pyRstrip
  let bullets := (rawLines.map pyStrip).filter startsWithBullet
  if bullets ≠ [] then bullets
  else ((rawLines.take 5).filter (fun ln => pyStrip ln ≠ "")).map (fun ln => "- " ++ pyStrip ln)

/-! ## bot.py : date extraction and grounding -/

/-- `_normalize_date_parts`: bounds check and zero-padded rendering. -/
def pad2 (n : Nat) : String :=
  if n < 10 then "0" ++ (⟨natRepr n⟩ : String) else ⟨natRepr n⟩

/-- `_normalize_date_parts`. -/
def normalize_date_parts (year month day : Nat) : Option String :=
  if year < 2000 || year > 2100 then none
  else if month < 1 || month > 12 then none
  else if day < 1 || day > 31 then none
  else some ((⟨natRepr year⟩ : String) ++ "-" ++ pad2 month ++ "-" ++ pad2 day)

/-- Greedy `\d{1,2}` (value and remainder), failing without a digit. -/
def take2Digits (l : List Char) : Option (Nat × List Char) :=
  match l with
  | a :: b :: rest =>
    if a.isDigit then
      if b.isDigit then some (digitsToNat [a, b], rest)
      else some (digitsToNat [a], b :: rest)
    else none
  | [a] => if a.isDigit then some (digitsToNat [a], []) else none
  | [] => none

/-- Separator class: dash, slash, 年. -/
def dateSeps1 : List Char := ['-', '/', '年']

/-- Separator class: dash, slash, 月. -/
def dateSeps2 : List Char := ['-', '/', '月']

/-- One attempt of
`(20\d{2})\s*[dash/slash/年]\s*(\d{1,2})\s*(?:[dash/slash/月]\s*(\d{1,2})\s*日?)?` at the
current position: on a regex match, the captured (year, month, day)
groups — the day defaulting to 1 — together with the text after the
match; `none` when the mandatory part does not match here.  The caller
normalizes the groups, as the Python loop does. -/
def tryNumDate : List Char → Option ((Nat × Nat × Nat) × List Char)
  | '2' :: '0' :: a :: b :: rest =>
    if a.isDigit && b.isDigit then
      let y := 2000 + 10 * (a.toNat - 48) + (b.toNat - 48)
      match rest.dropWhile isWsChar with
      | sep :: r2 =>
        if dateSeps1.contains sep then
          match take2Digits (r2.dropWhile isWsChar) with
          | some (mo, r3) =>
            let r4 := r3.dropWhile isWsChar
            match r4 with
            | sep2 :: r5 =>
              if dateSeps2.contains sep2 then
                match take2Digits (r5.dropWhile isWsChar) with
                | some (d, r6) =>
                  let r7 := r6.dropWhile isWsChar
                  let r8 := match r7 with
                    | '日' :: r => r
                    | _ => r7
                  some ((y, mo, d), r8)
                | none => some ((y, mo, 1), r4)
              else some ((y, mo, 1), r4)
            | [] => some ((y, mo, 1), r4)
          | none => none
        else none
      | [] => none
    else none
  | _ => none

/-- Non-overlapping scan collecting every normalized numeric date. -/
def numDateScanAux : Nat → List Char → List String
  | 0, _ => []
  | _ + 1, [] => []
  | fuel + 1, c :: rest =>
    match tryNumDate (c :: rest) with
    | some ((y, mo, d), r) =>
      match normalize_date_parts y mo d with
      | some s => s :: numDateScanAux fuel r
      | none => numDateScanAux fuel r
    | none => numDateScanAux fuel rest

/-- Does the mandatory part of the numeric date pattern match anywhere?
(the `date_re.search` of the bullet date-first check). -/
def numDateHitAux : Nat → List Char → Bool
  | 0, _ => false
  | _ + 1, [] => false
  | fuel + 1, c :: rest => (tryNumDate (c :: rest)).isSome || numDateHitAux fuel rest

/-- Word characters for Python `\b` over the modelled repertoire (ASCII
alphanumerics, underscore, CJK). -/
def isWordChar (c : Char) : Bool := c.isAlpha || c.isDigit || c = '_' || isCJKChar c

/-- English month names with their numbers, in alternation order. -/
def monthNames : List (String × Nat) :=
  [("january", 1), ("february", 2), ("march", 3), ("april", 4), ("may", 5),
   ("june", 6), ("july", 7), ("august", 8), ("september", 9), ("october", 10),
   ("november", 11), ("december", 12)]

/-- One attempt of `\b(January|…)\s+(\d{1,2}),\s*(20\d{2})\b`
(case-insensitive) at a position whose preceding character is already
known to be a non-word character. -/
def tryMonthDate (l : List Char) : Option ((Nat × Nat × Nat) × List Char) :=
  match monthNames.findSome? (fun mn =>
      if mn.1.toList.isPrefixOf (l.map Char.toLower) then
        some (mn.2, l.drop mn.1.toList.length)
      else none) with
  | none => none
  | some (mo, r0) =>
    let ws := r0.takeWhile isWsChar
    if ws.isEmpty then none
    else
      match take2Digits (r0.drop ws.length) with
      | none => none
      | some (d, r1) =>
        match r1 with
        | ',' :: r2 =>
          match r2.dropWhile isWsChar with
          | '2' :: '0' :: a :: b :: r4 =>
            if a.isDigit && b.isDigit
                && !((r4.head?.map isWordChar).getD false) then
              some ((2000 + 10 * (a.toNat - 48) + (b.toNat - 48), mo, d), r4)
            else none
          | _ => none
        | _ => none

/-- Non-overlapping scan of the month-name date pattern, tracking whether
the previous character was a word character (for the leading `\b`). -/
def monthScanAux : Nat → Bool → List Char → List String
  | 0, _, _ => []
  | _ + 1, _, [] => []
  | fuel + 1, prevWord, c :: rest =>
    if prevWord then monthScanAux fuel (isWordChar c) rest
    else
      match tryMonthDate (c :: rest) with
      | some ((y, mo, d), r) =>
        match normalize_date_parts y mo d with
        | some s => s :: monthScanAux fuel true r
        | none => monthScanAux fuel true r
      | none => monthScanAux fuel (isWordChar c) rest

/-- `_extract_date_candidates`: numeric candidates, then month-name
candidates, de-duplicated keeping first occurrences. -/
def extract_date_candidates (text : String) : List String :=
  let l := text.toList
  dedupFirstAux (numDateScanAux l.length l ++ monthScanAux l.length false l) []

/-- The explicit no-date marker `[未提供日期]`. -/
def noDateMarker : String := "[未提供日期]"

/-- The per-index date guess of `_build_source_date_hints` (1-based
`i`; missing results/pages behave as the empty dict). -/
def sourceDateHint (srs : List SearchResult) (fps : List FetchedPage) (i : Nat) : String :=
  let sr := srs.getD (i - 1) ⟨"", "", ""⟩
  let fp := fps.getD (i - 1) ⟨"", "", ""⟩
  let parts : List String := [sr.title, sr.description, fp.title, ⟨fp.text.toList.take 1500⟩]
  match ((parts.map extract_date_candidates).flatten).head? with
  | some d => d
  | none => noDateMarker

/-- `_build_source_date_hints`: the hint list (position `i-1` holds the
hint of source `i`) and the allowed-date collection (a Python set; only
membership is observable, so a list with possible repetitions models
it). -/
def build_source_date_hints (srs : List SearchResult) (fps : List FetchedPage) :
    List String × List String :=
  let maxN := max srs.length fps.length
  let hints := (List.range maxN).map (fun j => sourceDateHint srs fps (j + 1))
  (hints, hints.filter (fun d => d ≠ noDateMarker))

/-- `source_date_hints.get(i, "[未提供日期]")`. -/
def hintAt (hints : List String) (i : Nat) : String := hints.getD (i - 1) noDateMarker

/-- `_extract_news_bullet_dates`. -/
def extract_news_bullet_dates (text : String) : List String :=
  (bulletLines text).foldr (fun ln acc =>
    let head : String := ⟨ln.toList.take 80⟩
    if containsSub head "未提供日期" then noDateMarker :: acc
    else
      match (extract_date_candidates head).head? with
      | some d => d :: acc
      | none => acc) []

/-- `_news_dates_grounded_in_sources`. -/
def news_dates_grounded_in_sources (text : String) (allowedDates : List String) : Bool :=
  let ds := extract_news_bullet_dates text
  if ds.isEmpty then false
  else ds.all (fun d => d = noDateMarker || allowedDates.contains d)

/-- The bullet date-first check (source name `_news_output_has_date_` +
`prefix`): every bullet's first 64 characters must show a numeric date or
the no-date marker, and at least one bullet must exist. -/
def news_output_dates_first (text : String) : Bool :=
  let lines := bulletLines text
  if lines.isEmpty then false
  else lines.all (fun ln =>
    let head := ln.toList.take 64
    numDateHitAux head.length head || containsSub ⟨head⟩ "未提供日期")

/-! ## bot.py : deterministic texts -/

/-- Keyword lines that start a source-links block. -/
def linkBlockMarkers : List String :=
  ["來源連結", "来源链接", "來源鏈接", "source links", "references"]

/-- `_strip_source_links_block`. -/
def strip_source_links_block (text : String) : String :=
  let lines := splitLines text
  let cut := (lines.findIdx? (fun ln =>
    linkBlockMarkers.any (fun k => containsSub (pyLower (pyStrip ln)) k))).getD lines.length
  pyRstrip (joinLines (lines.take cut))

/-- `_build_recent_news_fallback`: the deterministic link-listing answer
(no model call); `user_text` is accepted but unused by the source too. -/
def build_recent_news_fallback (_userText : String) (searchResults : List SearchResult) :
    String :=
  let hdr : List String := [
    "我已查詢最新來源，但目前前幾個來源多為背景頁或歷史內容，無法可靠支持「最近幾天」的具體財經數字。",
    "若你要，我可以改成：",
    "1) 只整理『今天/過去 24 小時』可驗證的快訊",
    "2) 鎖定特定市場（美股/台股/中國股市/原油）再即時整理",
    "",
    "目前可用來源（先供你點閱）："]
  let srcLines := ((searchResults.take 5).enum).foldr
    (fun (p : Nat × SearchResult) acc =>
      let title := if pyStrip p.2.title = "" then "(untitled)" else pyStrip p.2.title
      let url := pyStrip p.2.url
      if url = "" then acc
      else ("[" ++ (⟨natRepr (p.1 + 1)⟩ : String) ++ "] " ++ title) :: url :: acc)
    []
  pyStrip (joinLines (hdr ++ srcLines))

/-! ## bot.py : the deterministic per-source news fallback -/

/-- Leading `[-•*]\s*` removal (`re.sub(r"^[-•*]\s*", "", line)`). -/
def stripBulletHead (line : String) : String :=
  match line.toList with
  | c :: rest =>
    if c = '-' || c = '•' || c = '*' then ⟨rest.dropWhile isWsChar⟩ else line
  | [] => line

/-- `re.sub(r"\[未提供日期\]", hint, line, count=1)`: replace the first
bracketed no-date marker. -/
def replaceFirstAux (pat rep : List Char) : Nat → List Char → List Char
  | 0, s => s
  | _ + 1, [] => []
  | fuel + 1, c :: rest =>
    if pat.isPrefixOf (c :: rest) then rep ++ (c :: rest).drop pat.length
    else c :: replaceFirstAux pat rep fuel rest

/-- Replace the first no-date marker of `line` by `hint`. -/
def replaceFirstMarker (line hint : String) : String :=
  ⟨replaceFirstAux noDateMarker.toList hint.toList line.toList.length line.toList⟩

/-- One attempt of the full-date pattern: backslash-b, year 20dd, a dash
or slash, 1-2 digits, a dash or slash, 1-2 digits, backslash-b, at a
position already known to sit on a word boundary. -/
def tryFullDate : List Char → Bool
  | '2' :: '0' :: a :: b :: sep :: rest =>
    a.isDigit && b.isDigit && (sep = '-' || sep = '/')
      && (match take2Digits rest with
          | some (_, r1) =>
            match r1 with
            | sep2 :: r2 =>
              (sep2 = '-' || sep2 = '/')
                && (match take2Digits r2 with
                    | some (_, r3) => !((r3.head?.map isWordChar).getD false)
                    | none => false)
            | [] => false
          | none => false)
  | _ => false

/-- Search of the full-date pattern, tracking the word boundary. -/
def fullDateHitAux : Nat → Bool → List Char → Bool
  | 0, _, _ => false
  | _ + 1, _, [] => false
  | fuel + 1, prevWord, c :: rest =>
    (!prevWord && tryFullDate (c :: rest)) || fullDateHitAux fuel (isWordChar c) rest

/-- Does `line` already carry a full numeric date? -/
def hasFullDate (line : String) : Bool :=
  fullDateHitAux line.toList.length false line.toList

/-- The date-hint injection `_deterministic_news_fallback` applies to the
first bullet line of source `i`'s summary: when the source has a real
hint and the line lacks a full numeric date, replace a bracketed no-date
marker in the line head or prepend the bold hint. -/
def fallbackLine1 (hints : List String) (i : Nat) (line : String) : String :=
  let hint := if hintAt hints i = "" then noDateMarker else hintAt hints i
  if hint ≠ noDateMarker && !hasFullDate line then
    if containsSub (⟨line.toList.take 40⟩ : String) "未提供日期" then
      replaceFirstMarker line hint
    else "- **" ++ hint ++ "** " ++ stripBulletHead line
  else line

/-- Force the `[i]` citation marker on the (possibly date-injected)
first bullet line. -/
def fallbackBullet (hints : List String) (i : Nat) (part : String) : Option String :=
  match (ensure_bullets part).head? with
  | none => none
  | some l0 =>
    let line1 := fallbackLine1 hints i (pyStrip l0)
    let mark := "[" ++ (⟨natRepr i⟩ : String) ++ "]"
    some (if containsSub line1 mark then line1 else pyRstrip line1 ++ " " ++ mark)

/-- `_deterministic_news_fallback`: one summarization model call per
selected source (the call's prompt — user question, title, domain,
content from the search result and fetched page — is absorbed into the
oracle; a failed task behaves like an empty summary), then direct string
composition of the surviving first bullets.  Returns the fallback text
and the advanced call counter. -/
def deterministic_news_fallback (oracle : Nat → String) (k : Nat)
    (srs : List SearchResult) (hints : List String) (maxItems : Nat) :
    String × Nat :=
  let n := min maxItems srs.length
  if n = 0 then ("", k)
  else
    let parts := (List.range n).map (fun j => oracle (k + j))
    let bullets := (parts.enum).filterMap (fun p => fallbackBullet hints (p.1 + 1) p.2)
    if bullets.isEmpty then ("", k + n)
    else ("以下是今天的一些國際要聞摘要：" ++ "\n\n" ++ joinLines bullets,
          k + n)

/-! ## bot.py : the post-generation validator/retry chain -/

/-- The per-turn facts the validators consult. -/
structure TurnCtx where
  userText : String
  currentYear : Nat
  toolWeb : Bool
  isNews : Bool
  isRecentNews : Bool
  isWeatherQ : Bool
  langPref : String
  searchResults : List SearchResult
  dateHints : List String
  allowedDates : List String
  newsMaxItems : Nat

/-- Check 1 (bot.py:1296): weather-refusal retry. -/
def stWeatherRetry (ctx : TurnCtx) (oracle : Nat → String) :
    String × Nat → String × Nat
  | (t, k) =>
    if ctx.toolWeb && ctx.isWeatherQ && !ctx.searchResults.isEmpty
        && is_weather_refusal t then
      (oracle k, k + 1)
    else (t, k)

/-- Check 2 (bot.py:1324 and again at 1505): Traditional-Chinese rewrite;
the rewritten text is kept only when its strip is non-empty. -/
def stLangRewrite (ctx : TurnCtx) (oracle : Nat → String) :
    String × Nat → String × Nat
  | (t, k) =>
    if ctx.langPref = "zh-Hant" && looks_simplified_chinese t then
      (if pyStrip (oracle k) ≠ "" then pyStrip (oracle k) else t, k + 1)
    else (t, k)

/-- Check 3 retry (bot.py:1353): stale-year retry for recent news. -/
def stStaleRetry (ctx : TurnCtx) (oracle : Nat → String) :
    String × Nat → String × Nat
  | (t, k) =>
    if ctx.toolWeb && ctx.isRecentNews && !ctx.searchResults.isEmpty
        && contains_stale_year_for_recent ctx.currentYear t then
      (oracle k, k + 1)
    else (t, k)

/-- Check 3 fallback (bot.py:1382): still stale after the retry — replace
by the deterministic link-listing fallback (no model call). -/
def stStaleFallback (ctx : TurnCtx) : String × Nat → String × Nat
  | (t, k) =>
    if ctx.toolWeb && ctx.isRecentNews && !ctx.searchResults.isEmpty
        && contains_stale_year_for_recent ctx.currentYear t then
      (build_recent_news_fallback ctx.userText ctx.searchResults, k)
    else (t, k)

/-- Check 4 (bot.py:1391): date-first bullet format retry. -/
def stDateRetry (ctx : TurnCtx) (oracle : Nat → String) :
    String × Nat → String × Nat
  | (t, k) =>
    if ctx.toolWeb && ctx.isNews && !ctx.searchResults.isEmpty
        && !news_output_dates_first t then
      (oracle k, k + 1)
    else (t, k)

/-- Check 5 (bot.py:1419): date-grounding retry. -/
def stGroundRetry (ctx : TurnCtx) (oracle : Nat → String) :
    String × Nat → String × Nat
  | (t, k) =>
    if ctx.toolWeb && ctx.isNews && !ctx.searchResults.isEmpty
        && !news_dates_grounded_in_sources t ctx.allowedDates then
      (oracle k, k + 1)
    else (t, k)

/-- Check 6 retry (bot.py:1446): citation-diversity retry. -/
def stDiverseRetry (ctx : TurnCtx) (oracle : Nat → String) :
    String × Nat → String × Nat
  | (t, k) =>
    if ctx.toolWeb && ctx.isNews && !ctx.searchResults.isEmpty
        && !news_has_diverse_citations t ctx.searchResults.length then
      (oracle k, k + 1)
    else (t, k)

/-- Check 6 fallback (bot.py:1473): still undiverse — the deterministic
per-source bullet fallback, kept only when non-empty. -/
def stDiverseFallback (ctx : TurnCtx) (oracle : Nat → String) :
    String × Nat → String × Nat
  | (t, k) =>
    if ctx.toolWeb && ctx.isNews && !ctx.searchResults.isEmpty
        && !news_has_diverse_citations t ctx.searchResults.length then
      let fb := deterministic_news_fallback oracle k ctx.searchResults ctx.dateHints
        (min ctx.newsMaxItems ctx.searchResults.length)
      (if pyStrip fb.1 ≠ "" then pyStrip fb.1 else t, fb.2)
    else (t, k)

/-- Final news link appendix (bot.py:1533). -/
def stNewsLinks (ctx : TurnCtx) (t : String) : String :=
  if ctx.toolWeb && ctx.isNews && !ctx.searchResults.isEmpty then
    let base := strip_source_links_block t
    let cited0 := extract_citation_indices base ctx.searchResults.length
    let cited :=
      if cited0.isEmpty then
        (List.range (min 10 ctx.searchResults.length)).map (· + 1)
      else cited0
    let linkLines := (cited.take 10).filterMap (fun i =>
      let url := pyStrip ((ctx.searchResults.getD (i - 1) ⟨"", "", ""⟩).url)
      if url = "" then none
      else some ("[" ++ (⟨natRepr i⟩ : String) ++ "] " ++ url))
    if linkLines.isEmpty then base
    else pyRstrip base ++ "\n\n" ++ "來源連結：\n" ++ joinLines linkLines
  else t

/-- Raw-URL appendix for non-news link requests (bot.py:1550). -/
def stWantsLinks (ctx : TurnCtx) (t : String) : String :=
  if ctx.toolWeb && wants_links ctx.userText && !ctx.searchResults.isEmpty
      && !ctx.isNews then
    let urls := ctx.searchResults.filterMap (fun r =>
      if pyStrip r.url = "" then none else some (pyStrip r.url))
    if urls.isEmpty then t else pyRstrip t ++ "\n\n" ++ joinLines (urls.take 5)
  else t

/-- The full post-generation processing of `on_message` (bot.py lines
1296–1557): the ordered checklist with single-shot retries and
fallbacks, the second language rewrite, and the link appendices.  The
input state is the freshly generated text with the next oracle index. -/
def validateAndFinish (ctx : TurnCtx) (oracle : Nat → String)
    (st : String × Nat) : String × Nat :=
  let s8 := stDiverseFallback ctx oracle
    (stDiverseRetry ctx oracle
      (stGroundRetry ctx oracle
        (stDateRetry ctx oracle
          (stStaleFallback ctx
            (stStaleRetry ctx oracle
              (stLangRewrite ctx oracle
                (stWeatherRetry ctx oracle st)))))))
  let s9 := stLangRewrite ctx oracle s8
  (stWantsLinks ctx (stNewsLinks ctx s9.1), s9.2)

/-! ## bot.py : profile inference and the conversation-state manager -/

/-- Scan for a final alternation group, every gap character non-newline
(the tail of a `.*`-joined search without DOTALL). -/
def chain1 (g : List String) : Nat → List Char → Bool
  | 0, _ => false
  | _ + 1, [] => false
  | fuel + 1, c :: rest =>
    g.any (fun w => w.toList.isPrefixOf (c :: rest)) || (c ≠ '\n' && chain1 g fuel rest)

/-- Scan for group `g2` then (newline-free gap) group `g3`. -/
def chain2 (g2 g3 : List String) : Nat → List Char → Bool
  | 0, _ => false
  | _ + 1, [] => false
  | fuel + 1, c :: rest =>
    g2.any (fun w =>
        w.toList.isPrefixOf (c :: rest)
          && (let r := (c :: rest).drop w.toList.length
              chain1 g3 r.length r))
      || (c ≠ '\n' && chain2 g2 g3 fuel rest)

/-- `re.search` of `(g1)…(g2)` with a `.*` join: match start anywhere,
newline-free in between. -/
def searchSeq2 (g1 g2 : List String) (s : String) : Bool :=
  let go : Nat → List Char → Bool := fun fuel l =>
    (List.range fuel).any (fun j =>
      g1.any (fun w =>
        w.toList.isPrefixOf (l.drop j)
          && (let r := (l.drop j).drop w.toList.length
              chain1 g2 r.length r)))
  go (s.toList.length + 1) s.toList

/-- `re.search` of `(g1)…(g2)…(g3)` with `.*` joins. -/
def searchSeq3 (g1 g2 g3 : List String) (s : String) : Bool :=
  let go : Nat → List Char → Bool := fun fuel l =>
    (List.range fuel).any (fun j =>
      g1.any (fun w =>
        w.toList.isPrefixOf (l.drop j)
          && (let r := (l.drop j).drop w.toList.length
              chain2 g2 g3 r.length r)))
  go (s.toList.length + 1) s.toList

/-- The declarative updates `_infer_profile_updates` derives from the
text (the weather-location update is added separately by `on_message`). -/
structure ProfileUpdates where
  preferredLanguage : Option String
  preferLinks : Option Bool
deriving DecidableEq, Repr

/-- `_infer_profile_updates`. -/
def infer_profile_updates (userText : String) : ProfileUpdates :=
  let t := pyStrip userText
  let tl := pyLower t
  let lang :=
    if searchSeq2 ["以後", "之後", "請", "麻煩"] ["繁體", "繁中"] t then some "zh-Hant"
    else if searchSeq2 ["以後", "之後", "請", "麻煩"] ["簡體", "简体", "簡中", "简中"] t then
      some "zh-Hans"
    else if searchSeq2 ["以後", "之後", "請", "麻煩"] ["英文", "english"] tl then some "en"
    else none
  let linkWords := ["連結", "链接", "網址", "网址", "來源", "来源", "link", "url"]
  let links :=
    if searchSeq3 ["以後", "之後", "都"] ["附", "給"] linkWords tl then some true
    else if searchSeq3 ["以後", "之後", "都"] ["不要", "別", "不必"] linkWords tl then some false
    else none
  ⟨lang, links⟩

/-- The per-chat profile document restricted to the fields bot.py reads
(absent fields are the empty string / `none`). -/
structure Profile where
  preferredLanguage : String
  defaultWeatherLocation : String
  preferLinks : Option Bool
  conversationSummary : String
deriving DecidableEq, Repr

/-- The `upsert_profile` merge of the inferred updates plus the optional
weather-location update, on the record view of the profile (all inferred
values are non-empty, a blank location is skipped like the store does). -/
def applyUpdates (p : Profile) (u : ProfileUpdates) (weatherLoc : Option String) :
    Profile :=
  let p1 := match u.preferredLanguage with
    | some s => { p with preferredLanguage := s }
    | none => p
  let p2 := match u.preferLinks with
    | some b => { p1 with preferLinks := some b }
    | none => p1
  match weatherLoc with
  | some loc => if pyStrip loc = "" then p2 else { p2 with defaultWeatherLocation := loc }
  | none => p2

/-- The cached `last_web_context` slot. -/
structure FollowCtx where
  tool : String
  isNews : Bool
  isWeather : Bool
  query : String
  searchResults : List SearchResult
  fetchedPages : List FetchedPage
  dateHints : List String
deriving Repr

/-- The settings fields `on_message` consults. -/
structure BotSettings where
  recentTurns : Nat
  fetchTopN : Nat
  newsMaxItems : Nat
  newsFollowupDefault : Nat
deriving Repr

/-- `collections.deque(maxlen).append`. -/
def dequeAppend (maxlen : Nat) (xs : List DTurn) (x : DTurn) : List DTurn :=
  let ys := xs ++ [x]
  ys.drop (ys.length - maxlen)

/-- `lst[-n:]`. -/
def takeLast {α : Type} (n : Nat) (l : List α) : List α := l.drop (l.length - n)

/-- Everything one inbound message supplies to `on_message`, with the
external collaborators as oracles: the planner output, the search
backend's results (used only if a search call is issued), the page
fetcher, and the chat-completion oracle indexed by call order. -/
structure TurnInput where
  chatId : Int
  tsStr : String
  userText : String
  currentYear : Nat
  settings : BotSettings
  store : List String
  window : List DTurn
  profile : Profile
  cached : Option FollowCtx
  planTool : String
  planQuery : String
  searchOracle : List SearchResult
  fetchOracle : String → String
  chat : Nat → String

/-- The observable outcome of one `on_message` run: the delivered reply,
the new durable store, recency window, profile and follow-up slot, plus
effect records (number of search calls, query used, the older turns
folded into the summary, the evidence actually used). -/
structure TurnOut where
  reply : String
  store : List String
  window : List DTurn
  profile : Profile
  followCtx : Option FollowCtx
  searchCalls : Nat
  searchQueryUsed : Option String
  followupN : Nat
  foldedOlder : Option (List DTurn)
  searchResults : List SearchResult
  fetchedPages : List FetchedPage

/-- The rolling-summarization step of `on_message` (bot.py:1126–1156):
when the reloaded window has reached `recent_turns*2`, the turns older
than the retained 6-turn tail are handed to the summarizer (`summaryRaw`
is that model call's output); a non-blank summary is stored in the
profile's `conversation_summary` and the window shrinks to the tail.
Returns the new window, the new profile, and the older turns passed to
the summarizer (`none` when no summarization call happens). -/
def fold_recent_to_summary (maxlen : Nat) (summaryRaw : String)
    (window2 : List DTurn) (profile1 : Profile) :
    List DTurn × Profile × Option (List DTurn) :=
  let older := window2.take (window2.length - 6)
  if maxlen ≤ window2.length ∧ older ≠ [] then
    let summary := pyStrip summaryRaw
    if summary ≠ "" then
      (takeLast 6 window2, { profile1 with conversationSummary := summary }, some older)
    else (window2, profile1, some older)
  else (window2, profile1, none)

/-- The canned weather clarification question (bot.py:1001). -/
def clarifyReply : String :=
  "你想查哪個城市/地區的天氣？例如：台北 / 台中 / 高雄 / 蘇州 / 上海。"

/-- The weather no-content apology (bot.py:1070). -/
def weatherNoContentReply : String :=
  "我目前抓不到可用的即時天氣內容（可能被網站阻擋或來源不穩）。請再提供城市/地區，或改問：『台北今天降雨機率』。"

/-- `on_message` from the point where the search results are settled
(bot.py:1045 on): page fetching (or reuse), the weather no-content early
return, per-source summaries, the rolling summarization fold, the
generation call, the validator chain and the final persistence. -/
def afterSearch (inp : TurnInput) (profile1 : Profile) (window2 : List DTurn)
    (store1 : List String) (toolWeb : Bool) (queryFinal : String)
    (followCond : Bool) (followupN : Nat) (results : List SearchResult)
    (searchCalls : Nat) (queryUsed : Option String) : TurnOut :=
  let s := inp.settings
  let maxlen := s.recentTurns * 2
  let userText := inp.userText
  let pages : List FetchedPage :=
    if toolWeb && !results.isEmpty then
      if followCond then (inp.cached.map FollowCtx.fetchedPages).getD []
      else
        (results.take s.fetchTopN).filterMap (fun r =>
          let url := pyStrip r.url
          if url = "" then none else some ⟨r.title, url, inp.fetchOracle url⟩)
    else []
  if toolWeb && is_weather_question userText
      && !(pages.any (fun p => pyStrip p.text ≠ "")) then
    { reply := weatherNoContentReply, store := store1, window := window2,
      profile := profile1, followCtx := inp.cached, searchCalls,
      searchQueryUsed := queryUsed, followupN, foldedOlder := none,
      searchResults := results, fetchedPages := pages }
  else
    let k0 := (pages.filter (fun p => pyStrip p.text ≠ "")).length
    let isNews := is_news_query userText
    let isRecent := is_recent_news_query userText
    let isWeatherQ := is_weather_question userText
    let hintsAllowed := build_source_date_hints results pages
    let folded := fold_recent_to_summary maxlen (inp.chat k0) window2 profile1
    let window3 := folded.1
    let profile2 := folded.2.1
    let k1 := if folded.2.2.isSome then k0 + 1 else k0
    let t0 := inp.chat k1
    let ctx : TurnCtx :=
      { userText, currentYear := inp.currentYear, toolWeb, isNews,
        isRecentNews := isRecent, isWeatherQ,
        langPref := pyStrip profile2.preferredLanguage,
        searchResults := results, dateHints := hintsAllowed.1,
        allowedDates := hintsAllowed.2, newsMaxItems := s.newsMaxItems }
    let finalText := (validateAndFinish ctx inp.chat (t0, k1 + 1)).1
    let ctx2 :=
      if toolWeb then
        some ({ tool := "web_search", isNews, isWeather := isWeatherQ,
                query := if queryFinal = "" then userText else queryFinal,
                searchResults := results, fetchedPages := pages,
                dateHints := hintsAllowed.1 } : FollowCtx)
      else inp.cached
    let window4 := dequeAppend maxlen window3 ⟨"assistant", finalText⟩
    let store2 := add_turn inp.chatId inp.tsStr "assistant" finalText store1
    { reply := finalText, store := store2, window := window4, profile := profile2,
      followCtx := ctx2, searchCalls, searchQueryUsed := queryUsed, followupN,
      foldedOlder := folded.2.2,
      searchResults := results, fetchedPages := pages }

/-- The weather-location gate and query construction of `on_message`
(bot.py lines 996–1044) for the non-follow-up web-search path: clarify
when a weather question resolves no location, else build the final query
and issue the search. -/
def weatherGate (inp : TurnInput) (profile1 : Profile) (window2 : List DTurn)
    (store1 : List String) (query1 : String) (followCond : Bool) (followupN : Nat) :
    TurnOut :=
  let maxlen := inp.settings.recentTurns * 2
  let userText := inp.userText
  let isW := is_weather_question userText
  let loc0 := if isW then extract_tw_location userText else ""
  let loc := if isW && loc0 = "" then pyStrip profile1.defaultWeatherLocation else loc0
  if isW && loc = "" then
    let window3 := dequeAppend maxlen window2 ⟨"assistant", clarifyReply⟩
    let store2 := add_turn inp.chatId inp.tsStr "assistant" clarifyReply store1
    { reply := clarifyReply, store := store2, window := window3,
      profile := profile1, followCtx := inp.cached, searchCalls := 0,
      searchQueryUsed := none, followupN, foldedOlder := none,
      searchResults := [], fetchedPages := [] }
  else
    let query2 :=
      if isW && loc ≠ "" && query1 = "" then
        let nloc := normalize_location loc
        if is_tw_location nloc then
          nloc ++ " 今天 天氣預報 降雨機率 最高溫 最低溫 體感 風速 中央氣象署"
        else nloc ++ " 今天 天氣預報 降雨機率 最高溫 最低溫 體感 風速"
      else query1
    let query3 :=
      if !isW && query2 = "" && is_market_index_query userText
          && anyKeywordLower userText ["道瓊", "道琼", "dow jones", "djia"] then
        "Dow Jones Industrial Average latest close past 5 trading days"
      else query2
    let q := if query3 = "" then userText else query3
    afterSearch inp profile1 window2 store1 true query3 followCond followupN
      inp.searchOracle 1 (some q)

/-- One full `on_message` run (private-chat path; the group mention strip
happens before `userText`).  Follows bot.py lines 908–1569. -/
def on_message (inp : TurnInput) : TurnOut :=
  let s := inp.settings
  let maxlen := s.recentTurns * 2
  let userText := inp.userText
  let store1 := add_turn inp.chatId inp.tsStr "user" userText inp.store
  let persisted := recent_turns inp.chatId maxlen store1
  let window2 := persisted.foldl (dequeAppend maxlen) []
  let pu := infer_profile_updates userText
  let weatherLoc :=
    if is_weather_question userText then
      let d := extract_tw_location userText
      if d ≠ "" then some (normalize_location d) else none
    else none
  let profile1 := applyUpdates inp.profile pu weatherLoc
  let tool0 := pyStrip (if inp.planTool = "" then "none" else inp.planTool)
  let query0 := pyStrip inp.planQuery
  let isFollowup := is_followup_continue userText
  let followCond := isFollowup
    && (match inp.cached with
        | some c => c.tool = "web_search" && c.isNews
        | none => false)
  let tool1 := if followCond then "web_search" else tool0
  let query1 := if followCond then "" else query0
  let followupN := extract_followup_count userText s.newsFollowupDefault s.newsMaxItems
  let force := should_force_web_search userText
  let toolFinal := if is_weather_question userText || force then "web_search" else tool1
  if toolFinal = "web_search" then
    if followCond then
      afterSearch inp profile1 window2 store1 true query1 followCond followupN
        ((inp.cached.map FollowCtx.searchResults).getD []) 0 none
    else
      weatherGate inp profile1 window2 store1 query1 followCond followupN
  else
    afterSearch inp profile1 window2 store1 false query1 followCond followupN [] 0 none


/-- The single normal form every extracted date shares: the zero-padded
rendering of bounded year/month/day parts produced by
`_normalize_date_parts`. -/
def DateNormalForm (s : String) : Prop :=
  ∃ y mo d : Nat, 2000 ≤ y ∧ y ≤ 2100 ∧ 1 ≤ mo ∧ mo ≤ 12 ∧ 1 ≤ d ∧ d ≤ 31
    ∧ s = (⟨natRepr y⟩ : String) ++ "-" ++ pad2 mo ++ "-" ++ pad2 d
    ∧ s.toList.length = 10
    ∧ (natRepr y).length = 4 ∧ (natRepr y).all Char.isDigit = true
    ∧ (pad2 mo).toList.length = 2 ∧ (pad2 mo).toList.all Char.isDigit = true
    ∧ (pad2 d).toList.length = 2 ∧ (pad2 d).toList.all Char.isDigit = true

/-! ## Concrete turn instances used by the claim analyses -/

/-- The empty profile document. -/
def emptyProfile : Profile := ⟨"", "", none, ""⟩

/-- A recency-sensitive generation carrying a stale year. -/
def c1TextA : String := "2020年發生的事件回顧：\n- 舊聞一"

/-- The answer to the date-format retry that fires on the link-listing
fallback: a well-formed bullet that still carries the stale year. -/
def c1Final : String := "- [未提供日期] 2020年的背景說明 [1]"

/-- A recent-news turn whose generation and stale-year retry both come
back stale, and whose date-format retry then replaces the link-listing
fallback by a stale-year bullet again. -/
def c1Input : TurnInput :=
  { chatId := 7, tsStr := "10:00:00", userText := "最近 新聞",
    currentYear := 2026,
    settings := { recentTurns := 6, fetchTopN := 3, newsMaxItems := 8,
                  newsFollowupDefault := 5 },
    store := [], window := [], profile := emptyProfile, cached := none,
    planTool := "web_search", planQuery := "q",
    searchOracle := [⟨"alpha", "", "desc"⟩],
    fetchOracle := fun _ => "",
    chat := fun k => if k ≤ 1 then c1TextA else if k = 2 then c1Final else "" }

/-- A validator context for the stale-year stage witness. -/
def c1wCtx : TurnCtx :=
  { userText := "最近 新聞", currentYear := 2026, toolWeb := true, isNews := true,
    isRecentNews := true, isWeatherQ := false, langPref := "",
    searchResults := [⟨"alpha", "http://a.example", "d"⟩],
    dateHints := ["[未提供日期]"], allowedDates := [], newsMaxItems := 8 }

/-- An oracle whose stale-year retry stays stale. -/
def c1wOracle : Nat → String := fun _ => "仍然是2020年的舊內容"

/-- A three-bullet news answer with no citation markers at all. -/
def c2Text : String :=
  "- [未提供日期] alpha\n- [未提供日期] beta\n- [未提供日期] gamma"

/-- A news turn whose single source has a blank URL and whose per-source
summaries all come back blank, so the diversity fallback produces
nothing. -/
def c2Input : TurnInput :=
  { chatId := 7, tsStr := "10:00:00", userText := "今天 新聞",
    currentYear := 2026,
    settings := { recentTurns := 6, fetchTopN := 3, newsMaxItems := 8,
                  newsFollowupDefault := 5 },
    store := [], window := [], profile := emptyProfile, cached := none,
    planTool := "web_search", planQuery := "q",
    searchOracle := [⟨"alpha", "", "desc"⟩],
    fetchOracle := fun _ => "", chat := fun k => if k ≤ 1 then c2Text else "" }

/-- A validator context for the diversity-stage witness: two sources with
real URLs and extracted date hints. -/
def c2wCtx : TurnCtx :=
  { userText := "今天 新聞", currentYear := 2026, toolWeb := true, isNews := true,
    isRecentNews := false, isWeatherQ := false, langPref := "",
    searchResults := [⟨"Alpha", "http://a.example", "d1"⟩,
                      ⟨"Beta", "http://b.example", "d2"⟩],
    dateHints := ["2026-01-02", "2026-01-03"],
    allowedDates := ["2026-01-02", "2026-01-03"], newsMaxItems := 8 }

/-- Oracle for the diversity-stage witness: the retry repeats an
answer without diverse citations, the two per-source summary calls
return one line each. -/
def c2wOracle : Nat → String
  | 0 => "- a\n- b\n- c"
  | 1 => "alpha news line"
  | 2 => "beta news line"
  | _ => ""

/-- A source whose description carries one extractable date. -/
def c3wSrs : List SearchResult :=
  [⟨"News", "http://a.example", "發布於2026-02-18的報導"⟩]

/-- A validator context for the grounding-stage witness, with the
allowed-date set built from `c3wSrs` by the source itself. -/
def c3wCtx : TurnCtx :=
  { userText := "今天 新聞", currentYear := 2026, toolWeb := true, isNews := true,
    isRecentNews := false, isWeatherQ := false, langPref := "",
    searchResults := c3wSrs,
    dateHints := (build_source_date_hints c3wSrs []).1,
    allowedDates := (build_source_date_hints c3wSrs []).2, newsMaxItems := 8 }

/-- A recency window already at the `recent_turns*2 = 12` capacity. -/
def c5Window : List DTurn := List.replicate 12 ⟨"user", "m"⟩

/-- A news-flagged cached follow-up context with one fetched page. -/
def c6Cached : FollowCtx :=
  { tool := "web_search", isNews := true, isWeather := false, query := "x",
    searchResults := [⟨"t", "u", "d"⟩], fetchedPages := [⟨"t", "u", "page text"⟩],
    dateHints := ["[未提供日期]"] }

/-- A weather question with no extractable location and no stored
default that nonetheless matches the follow-up continuation pattern
while a news-flagged follow-up context is cached. -/
def c6Input : TurnInput :=
  { chatId := 7, tsStr := "10:00:00", userText := "更多3天氣",
    currentYear := 2026,
    settings := { recentTurns := 6, fetchTopN := 3, newsMaxItems := 8,
                  newsFollowupDefault := 5 },
    store := [], window := [], profile := emptyProfile, cached := some c6Cached,
    planTool := "none", planQuery := "",
    searchOracle := [], fetchOracle := fun _ => "",
    chat := fun _ => "台北今天晴。" }

/-- A plain weather question with no extractable location, no stored
default and no follow-up match. -/
def c6wInput : TurnInput :=
  { chatId := 7, tsStr := "10:00:00", userText := "天氣如何",
    currentYear := 2026,
    settings := { recentTurns := 6, fetchTopN := 3, newsMaxItems := 8,
                  newsFollowupDefault := 5 },
    store := [], window := [], profile := emptyProfile, cached := none,
    planTool := "none", planQuery := "",
    searchOracle := [], fetchOracle := fun _ => "", chat := fun _ => "" }

/-- A follow-up continuation whose FIRST integer (3, from `3月`) differs
from the trailing count (5) written after the continue phrase. -/
def c8Input : TurnInput :=
  { chatId := 7, tsStr := "10:00:00", userText := "3月之後再多5條",
    currentYear := 2026,
    settings := { recentTurns := 6, fetchTopN := 3, newsMaxItems := 8,
                  newsFollowupDefault := 5 },
    store := [], window := [], profile := emptyProfile, cached := some c6Cached,
    planTool := "none", planQuery := "",
    searchOracle := [], fetchOracle := fun _ => "",
    chat := fun _ => "好的，以下繼續。" }

/-- A clean follow-up continuation (`繼續 更多5`) over a news-flagged
cached context. -/
def c8wInput : TurnInput :=
  { chatId := 7, tsStr := "10:00:00", userText := "繼續 更多5",
    currentYear := 2026,
    settings := { recentTurns := 6, fetchTopN := 3, newsMaxItems := 8,
                  newsFollowupDefault := 5 },
    store := [], window := [], profile := emptyProfile, cached := some c6Cached,
    planTool := "none", planQuery := "",
    searchOracle := [], fetchOracle := fun _ => "",
    chat := fun _ => "好的，以下繼續。" }


/-! # Theorems

General-purpose lemmas first, then the per-claim theorems. -/

theorem infixOf_iff (pat : List Char) : ∀ l : List Char, infixOf pat l = true ↔ pat <:+: l := by
  intro l
  induction l with
  | nil => simp [infixOf, List.isEmpty_iff]
  | cons c rest ih =>
    simp only [infixOf, Bool.or_eq_true, List.isPrefixOf_iff_prefix, ih]
    constructor
    · rintro (h | h)
      · exact h.isInfix
      · exact h.trans (List.infix_cons (List.infix_refl rest))
    · rintro ⟨s, t, hst⟩
      cases s with
      | nil => exact Or.inl ⟨t, by simpa using hst⟩
      | cons s0 s1 =>
        refine Or.inr ⟨s1, t, ?_⟩
        simpa using congrArg List.tail hst

theorem dedupFirstAux_mem {α : Type} [DecidableEq α] (x : α) :
    ∀ (l seen : List α), x ∈ dedupFirstAux l seen ↔ x ∈ l ∧ x ∉ seen := by
  intro l
  induction l with
  | nil => intro seen; simp [dedupFirstAux]
  | cons a rest ih =>
    intro seen
    by_cases ha : a ∈ seen
    · simp only [dedupFirstAux, if_pos ha, ih, List.mem_cons]
      constructor
      · rintro ⟨hx, hs⟩; exact ⟨Or.inr hx, hs⟩
      · rintro ⟨hx | hx, hs⟩
        · exact absurd (hx ▸ ha) hs
        · exact ⟨hx, hs⟩
    · simp only [dedupFirstAux, if_neg ha, List.mem_cons, ih, List.mem_cons]
      constructor
      · rintro (rfl | ⟨hx, hs⟩)
        · exact ⟨Or.inl rfl, ha⟩
        · refine ⟨Or.inr hx, fun h => hs ?_⟩
          simp [h]
      · rintro ⟨hx | hx, hs⟩
        · exact Or.inl hx
        · by_cases hxa : x = a
          · exact Or.inl hxa
          · refine Or.inr ⟨hx, fun h => ?_⟩
            simp only [List.mem_cons] at h
            rcases h with h | h
            · exact hxa h
            · exact hs h

theorem dedupFirstAux_nodup {α : Type} [DecidableEq α] :
    ∀ (l seen : List α), (dedupFirstAux l seen).Nodup := by
  intro l
  induction l with
  | nil => intro seen; simp [dedupFirstAux]
  | cons a rest ih =>
    intro seen
    by_cases ha : a ∈ seen
    · simpa [dedupFirstAux, if_pos ha] using ih seen
    · simp only [dedupFirstAux, if_neg ha]
      refine List.Nodup.cons ?_ (ih (a :: seen))
      intro hmem
      exact ((dedupFirstAux_mem a rest (a :: seen)).mp hmem).2 (List.mem_cons_self a seen)

theorem dedupFirstAux_sublist {α : Type} [DecidableEq α] :
    ∀ (l seen : List α), List.Sublist (dedupFirstAux l seen) l := by
  intro l
  induction l with
  | nil => intro seen; simp [dedupFirstAux]
  | cons a rest ih =>
    intro seen
    by_cases ha : a ∈ seen
    · simp only [dedupFirstAux, if_pos ha]
      exact List.Sublist.cons a (ih seen)
    · simp only [dedupFirstAux, if_neg ha]
      exact List.Sublist.cons₂ a (ih (a :: seen))

theorem two_mem_length_ge {α : Type} {l : List α} {a b : α}
    (ha : a ∈ l) (hb : b ∈ l) (hne : a ≠ b) : 2 ≤ l.length := by
  cases l with
  | nil => simp at ha
  | cons x rest =>
    cases rest with
    | nil =>
      have h1 : a = x := by simpa using ha
      have h2 : b = x := by simpa using hb
      exact absurd (h1.trans h2.symm) hne
    | cons y r2 => simp only [List.length]; omega

theorem takeWhile_append_stop {p : Char → Bool} :
    ∀ (xs : List Char) (y : Char) (ys : List Char),
      xs.all p = true → p y = false →
      (xs ++ y :: ys).takeWhile p = xs ∧ (xs ++ y :: ys).drop xs.length = y :: ys := by
  intro xs
  induction xs with
  | nil =>
    intro y ys _ hy
    simp [List.takeWhile, hy]
  | cons x rest ih =>
    intro y ys hall hy
    simp only [List.all_cons, Bool.and_eq_true] at hall
    have := ih y ys hall.2 hy
    constructor
    · simp [List.takeWhile_cons, hall.1, this.1]
    · simp only [List.cons_append, List.length_cons, List.drop_succ_cons]
      exact this.2

theorem replaceAux_congr (pat rep : List Char) :
    ∀ (f₁ : Nat) (l : List Char) (f₂ : Nat), l.length ≤ f₁ → l.length ≤ f₂ →
      replaceAux pat rep f₁ l = replaceAux pat rep f₂ l := by
  intro f₁
  induction f₁ with
  | zero =>
    intro l f₂ h1 _
    have hl : l = [] := List.eq_nil_of_length_eq_zero (Nat.le_zero.mp h1)
    subst hl
    cases f₂ <;> rfl
  | succ n ih =>
    intro l f₂ h1 h2
    cases l with
    | nil => cases f₂ <;> rfl
    | cons c rest =>
      cases f₂ with
      | zero => simp at h2
      | succ m =>
        simp only [replaceAux]
        by_cases hc : (decide (pat ≠ []) && pat.isPrefixOf (c :: rest)) = true
        · rw [if_pos hc, if_pos hc]
          have hpat : pat ≠ [] := by
            have := (Bool.and_eq_true ..).mp hc
            exact of_decide_eq_true this.1
          have hplen : 1 ≤ pat.length := List.length_pos.mpr hpat
          have hlen : ((c :: rest).drop pat.length).length ≤ rest.length := by
            simp only [List.length_drop, List.length_cons]
            omega
          simp only [List.length_cons] at h1 h2
          exact congrArg (rep ++ ·) (ih _ m (le_trans hlen (by omega)) (le_trans hlen (by omega)))
        · rw [if_neg hc, if_neg hc]
          simp only [List.length_cons] at h1 h2
          exact congrArg (c :: ·) (ih rest m (by omega) (by omega))

theorem replace_cons_pos {pat rep : List Char} {c : Char} {rest : List Char}
    (h : (decide (pat ≠ []) && pat.isPrefixOf (c :: rest)) = true) :
    replaceAux pat rep (c :: rest).length (c :: rest)
      = rep ++ replaceAux pat rep ((c :: rest).drop pat.length).length
          ((c :: rest).drop pat.length) := by
  simp only [List.length_cons, replaceAux, if_pos h]
  refine congrArg (rep ++ ·) (replaceAux_congr pat rep _ _ _ ?_ le_rfl)
  have hpat : pat ≠ [] := by
    have := (Bool.and_eq_true ..).mp h
    exact of_decide_eq_true this.1
  have := List.length_pos.mpr hpat
  simp only [List.length_drop, List.length_cons]
  omega

theorem replace_cons_neg {pat rep : List Char} {c : Char} {rest : List Char}
    (h : ¬ (decide (pat ≠ []) && pat.isPrefixOf (c :: rest)) = true) :
    replaceAux pat rep (c :: rest).length (c :: rest)
      = c :: replaceAux pat rep rest.length rest := by
  simp only [List.length_cons, replaceAux, if_neg h]

theorem replace_id_of_not_head (c₀ : Char) (pt rep : List Char) :
    ∀ (f : Nat) (l : List Char), c₀ ∉ l → replaceAux (c₀ :: pt) rep f l = l := by
  intro f
  induction f with
  | zero => intro l _; rfl
  | succ n ih =>
    intro l hl
    cases l with
    | nil => rfl
    | cons c rest =>
      have hc : ¬ (c₀ = c) := fun h => hl (by simp [h])
      have hpre : (c₀ :: pt).isPrefixOf (c :: rest) = false := by
        simp [List.isPrefixOf, hc]
      simp only [replaceAux, hpre, Bool.and_false, if_false, Bool.false_eq_true]
      exact congrArg (c :: ·) (ih rest (fun h => hl (List.mem_cons_of_mem c h)))

theorem natReprAux_eq : ∀ n : Nat, ∀ f : Nat, n < f → natReprAux f n = natRepr n := by
  intro n
  induction n using Nat.strong_induction_on with
  | _ n ih =>
    intro f hf
    cases f with
    | zero => omega
    | succ m =>
      by_cases h10 : n < 10
      · simp [natReprAux, natRepr, h10]
      · have hdiv : n / 10 < n := Nat.div_lt_self (by omega) (by omega)
        have e1 : natReprAux (m + 1) n = natReprAux m (n / 10) ++ [Char.ofNat (48 + n % 10)] := by
          simp [natReprAux, h10]
        have e2 : natRepr n = natReprAux n (n / 10) ++ [Char.ofNat (48 + n % 10)] := by
          simp [natRepr, natReprAux, h10]
        rw [e1, e2, ih (n / 10) hdiv m (by omega), ih (n / 10) hdiv n (by omega)]

theorem natRepr_lt10 {n : Nat} (h : n < 10) : natRepr n = [Char.ofNat (48 + n)] := by
  simp [natRepr, natReprAux, h]

theorem natRepr_ge10 {n : Nat} (h : 10 ≤ n) :
    natRepr n = natRepr (n / 10) ++ [Char.ofNat (48 + n % 10)] := by
  have e2 : natRepr n = natReprAux n (n / 10) ++ [Char.ofNat (48 + n % 10)] := by
    simp [natRepr, natReprAux, Nat.not_lt.mpr h]
  rw [e2, natReprAux_eq (n / 10) n (lt_of_lt_of_le (Nat.div_lt_self (by omega) (by omega)) le_rfl)]

theorem digitChar_facts {d : Nat} (hd : d < 10) :
    (Char.ofNat (48 + d)).isDigit = true ∧ (Char.ofNat (48 + d)).toNat = 48 + d := by
  interval_cases d <;> exact ⟨by decide, by decide⟩

theorem digitsToNat_append_last (xs : List Char) (c : Char) :
    digitsToNat (xs ++ [c]) = 10 * digitsToNat xs + (c.toNat - 48) := by
  simp [digitsToNat, List.foldl_append]
  omega

theorem natRepr_spec : ∀ n : Nat,
    natRepr n ≠ [] ∧ (natRepr n).all Char.isDigit = true ∧ digitsToNat (natRepr n) = n := by
  intro n
  induction n using Nat.strong_induction_on with
  | _ n ih =>
    by_cases h10 : n < 10
    · rw [natRepr_lt10 h10]
      have hd := digitChar_facts h10
      refine ⟨by simp, by simp [hd.1], ?_⟩
      simp [digitsToNat, hd.2]
    · have h10' : 10 ≤ n := Nat.not_lt.mp h10
      rw [natRepr_ge10 h10']
      have hdiv : n / 10 < n := Nat.div_lt_self (by omega) (by omega)
      have ihd := ih (n / 10) hdiv
      have hd := digitChar_facts (Nat.mod_lt n (by omega))
      refine ⟨by simp, ?_, ?_⟩
      · simp [List.all_append, ihd.2.1, hd.1]
      · rw [digitsToNat_append_last, ihd.2.2, hd.2]
        omega

theorem natRepr_length1 {n : Nat} (h : n < 10) : (natRepr n).length = 1 := by
  rw [natRepr_lt10 h]; rfl

theorem natRepr_length2 {n : Nat} (h1 : 10 ≤ n) (h2 : n < 100) : (natRepr n).length = 2 := by
  rw [natRepr_ge10 h1]
  have : n / 10 < 10 := by omega
  simp [natRepr_length1 this]

theorem natRepr_length4 {n : Nat} (h1 : 1000 ≤ n) (h2 : n < 10000) :
    (natRepr n).length = 4 := by
  rw [natRepr_ge10 (by omega)]
  rw [natRepr_ge10 (show 10 ≤ n / 10 by omega)]
  rw [natRepr_ge10 (show 10 ≤ n / 10 / 10 by omega)]
  have : n / 10 / 10 / 10 < 10 := by omega
  simp [natRepr_length1 this]

theorem escapeL_cons_nl (t : List Char) :
    replaceAux ['\n'] ['\\', 'n'] ('\n' :: t).length ('\n' :: t)
      = '\\' :: 'n' :: replaceAux ['\n'] ['\\', 'n'] t.length t := by
  have h : (decide ((['\n'] : List Char) ≠ []) && (['\n'] : List Char).isPrefixOf ('\n' :: t))
      = true := by
    simp [List.isPrefixOf]
  rw [replace_cons_pos h]
  simp

theorem escapeL_cons_other {c : Char} (t : List Char) (hc : c ≠ '\n') :
    replaceAux ['\n'] ['\\', 'n'] (c :: t).length (c :: t)
      = c :: replaceAux ['\n'] ['\\', 'n'] t.length t := by
  apply replace_cons_neg
  simp [List.isPrefixOf]
  exact fun h => absurd h.symm hc

theorem unescapeL_cons_pat (t : List Char) :
    replaceAux ['\\', 'n'] ['\n'] ('\\' :: 'n' :: t).length ('\\' :: 'n' :: t)
      = '\n' :: replaceAux ['\\', 'n'] ['\n'] t.length t := by
  have h : (decide ((['\\', 'n'] : List Char) ≠ [])
      && (['\\', 'n'] : List Char).isPrefixOf ('\\' :: 'n' :: t)) = true := by
    simp [List.isPrefixOf]
  rw [replace_cons_pos h]
  simp

theorem unescapeL_cons_other {c : Char} {t : List Char}
    (h : (['\\', 'n'] : List Char).isPrefixOf (c :: t) = false) :
    replaceAux ['\\', 'n'] ['\n'] (c :: t).length (c :: t)
      = c :: replaceAux ['\\', 'n'] ['\n'] t.length t := by
  apply replace_cons_neg
  simp [h]

theorem unescape_escape_core :
    ∀ l : List Char, infixOf ['\\', 'n'] l = false →
      replaceAux ['\\', 'n'] ['\n']
        (replaceAux ['\n'] ['\\', 'n'] l.length l).length
        (replaceAux ['\n'] ['\\', 'n'] l.length l) = l := by
  intro l
  induction l with
  | nil => intro _; rfl
  | cons c t ih =>
    intro hinf
    have hsplit : (['\\', 'n'] : List Char).isPrefixOf (c :: t) = false
        ∧ infixOf ['\\', 'n'] t = false := by
      have h1 : ((['\\', 'n'] : List Char).isPrefixOf (c :: t) || infixOf ['\\', 'n'] t)
          = false := hinf
      exact ⟨by simpa using (Bool.or_eq_false_iff.mp h1).1,
             (Bool.or_eq_false_iff.mp h1).2⟩
    by_cases hc : c = '\n'
    · subst hc
      rw [escapeL_cons_nl, unescapeL_cons_pat, ih hsplit.2]
    · rw [escapeL_cons_other t hc]
      have hnp : (['\\', 'n'] : List Char).isPrefixOf
          (c :: replaceAux ['\n'] ['\\', 'n'] t.length t) = false := by
        by_cases hcb : c = '\\'
        · subst hcb
          cases t with
          | nil => simp [List.isPrefixOf]
          | cons b t2 =>
            by_cases hb : b = '\n'
            · subst hb
              rw [escapeL_cons_nl]
              simp [List.isPrefixOf]
            · rw [escapeL_cons_other t2 hb]
              by_cases hbn : b = 'n'
              · subst hbn
                exfalso
                have : (['\\', 'n'] : List Char).isPrefixOf ('\\' :: 'n' :: t2) = true := by
                  simp [List.isPrefixOf]
                rw [this] at hsplit
                exact Bool.true_eq_false.mp hsplit.1
              · simp [List.isPrefixOf]
                exact fun h => absurd h.symm hbn
        · simp [List.isPrefixOf]
          exact fun h => absurd h.symm hcb
      rw [unescapeL_cons_other hnp, ih hsplit.2]

theorem escapeContent_eq {l : List Char} (hcr : '\r' ∉ l) :
    escapeContent ⟨l⟩ = ⟨replaceAux ['\n'] ['\\', 'n'] l.length l⟩ := by
  have e1 : ("\r\n" : String).toList = ['\r', '\n'] := by decide
  have e2 : ("\r" : String).toList = ['\r'] := by decide
  have e3 : ("\n" : String).toList = ['\n'] := by decide
  have e4 : ("\\n" : String).toList = ['\\', 'n'] := by decide
  show (pyReplace (pyReplace (pyReplace ⟨l⟩ "\r\n" "\n") "\r" "\n") "\n" "\\n") = _
  unfold pyReplace
  rw [e1, e2, e3, e4]
  have s1 : replaceAux ['\r', '\n'] ['\n'] (String.toList ⟨l⟩).length (String.toList ⟨l⟩)
      = l := replace_id_of_not_head '\r' ['\n'] ['\n'] _ l hcr
  simp only [String.toList] at s1 ⊢
  rw [s1]
  rw [replace_id_of_not_head '\r' [] ['\n'] _ l hcr]

theorem unescape_escape (l : List Char) (hcr : '\r' ∉ l)
    (hbn : infixOf ['\\', 'n'] l = false) :
    unescapeContent (escapeContent ⟨l⟩) = ⟨l⟩ := by
  rw [escapeContent_eq hcr]
  have e4 : ("\\n" : String).toList = ['\\', 'n'] := by decide
  have e3 : ("\n" : String).toList = ['\n'] := by decide
  unfold unescapeContent pyReplace
  rw [e4, e3]
  simp only [String.toList]
  exact congrArg String.mk (unescape_escape_core l hbn)

theorem toList_append (a b : String) : (a ++ b).toList = a.toList ++ b.toList :=
  String.data_append a b

theorem dropExact_append (p : String) (r : List Char) :
    dropExact p (p.toList ++ r) = some r := by
  unfold dropExact
  rw [if_pos ((List.isPrefixOf_iff_prefix).mpr (List.prefix_append _ _))]
  exact congrArg some (List.drop_left _ _)

theorem parseTurnLine_turnLine (chatId : Int) (ts role content : String)
    (hts_len : ts.toList.length = 8) (hts_all : ts.toList.all isTimeChar = true)
    (hrole : role = "user" ∨ role = "assistant") :
    parseTurnLine (turnLine chatId ts role content)
      = some (chatId, role, escapeContent content) := by
  have hne : natRepr chatId.natAbs ≠ [] := (natRepr_spec chatId.natAbs).1
  have hall : (natRepr chatId.natAbs).all Char.isDigit = true := (natRepr_spec chatId.natAbs).2.1
  have hval : digitsToNat (natRepr chatId.natAbs) = chatId.natAbs := (natRepr_spec chatId.natAbs).2.2
  obtain ⟨d, ds', hds⟩ := List.exists_cons_of_ne_nil hne
  have hddig : d.isDigit = true := by
    have h := hall
    rw [hds] at h
    simp only [List.all_cons, Bool.and_eq_true] at h
    exact h.1
  have hdne : d ≠ '-' := fun h => by rw [h] at hddig; exact absurd hddig (by decide)
  have e1 : ((" (") : String).toList = [' ', '('] := by decide
  have e2 : ((") ") : String).toList = [')', ' '] := by decide
  have eu : ("user" : String).toList = ['u', 's', 'e', 'r'] := by decide
  have eup : ("user) " : String).toList = ['u', 's', 'e', 'r', ')', ' '] := by decide
  have ea : ("assistant" : String).toList
      = ['a', 's', 's', 'i', 's', 't', 'a', 'n', 't'] := by decide
  have eap : ("assistant) " : String).toList
      = ['a', 's', 's', 'i', 's', 't', 'a', 'n', 't', ')', ' '] := by decide
  obtain ⟨esc, hesc⟩ : ∃ r, (escapeContent content).toList = r := ⟨_, rfl⟩
  obtain ⟨R5, hR5⟩ : ∃ r, role.toList ++ (')' :: ' ' :: esc) = r := ⟨_, rfl⟩
  obtain ⟨R3, hR3⟩ : ∃ r, intRepr chatId ++ (' ' :: '(' :: R5) = r := ⟨_, rfl⟩
  obtain ⟨R2, hR2⟩ : ∃ r, "] chat:".toList ++ R3 = r := ⟨_, rfl⟩
  have hdecomp : (turnLine chatId ts role content).toList
      = "- [".toList ++ (ts.toList ++ R2) := by
    show ("- [" ++ ts ++ "] chat:" ++ (⟨intRepr chatId⟩ : String) ++ " (" ++ role ++ ") "
        ++ escapeContent content).toList = _
    simp only [toList_append]
    rw [← hR2, ← hR3, ← hR5, ← hesc, e1, e2]
    show _ ++ _ = _
    simp [List.append_assoc]
  have hsp : dropExact " (" (' ' :: '(' :: R5) = some R5 := by
    have h := dropExact_append " (" R5
    rw [e1] at h
    simpa using h
  have huser : dropExact "user) " (("user" : String).toList ++ (')' :: ' ' :: esc))
      = some esc := by
    have h := dropExact_append "user) " esc
    rw [eup] at h
    rw [eu]
    simpa using h
  have hasst1 : dropExact "user) " (("assistant" : String).toList ++ (')' :: ' ' :: esc))
      = none := by
    rw [ea]
    unfold dropExact
    rw [if_neg]
    intro h
    rw [eup] at h
    simp [List.isPrefixOf] at h
  have hasst2 : dropExact "assistant) " (("assistant" : String).toList ++ (')' :: ' ' :: esc))
      = some esc := by
    have h := dropExact_append "assistant) " esc
    rw [eap] at h
    rw [ea]
    simpa using h
  have hstop := takeWhile_append_stop (p := Char.isDigit) (natRepr chatId.natAbs)
    ' ' ('(' :: R5) hall (by decide)
  have htake : (ts.toList ++ R2).take 8 = ts.toList := by
    rw [← hts_len]
    exact List.take_left _ _
  have hdrop : (ts.toList ++ R2).drop 8 = R2 := by
    rw [← hts_len]
    exact List.drop_left _ _
  unfold parseTurnLine
  rw [hdecomp, dropExact_append]
  dsimp only
  rw [htake, hdrop]
  have hcond8 : (decide (ts.toList.length = 8) && ts.toList.all isTimeChar) = true := by
    rw [hts_len, hts_all]
    simp
  rw [if_pos hcond8]
  rw [← hR2, dropExact_append]
  dsimp only
  rw [← hR3]
  by_cases hneg : chatId < 0
  · have hint : intRepr chatId = '-' :: natRepr chatId.natAbs := by
      simp [intRepr, hneg]
    rw [hint]
    simp only [List.cons_append, List.head?_cons, List.tail_cons, if_true]
    rw [hstop.1, hstop.2]
    rw [if_neg (by simp [hds])]
    rw [hsp]
    dsimp only
    rw [hval]
    have hcid : -(chatId.natAbs : Int) = chatId := by omega
    rcases hrole with hr | hr
    · subst hr
      rw [← hR5, huser]
      dsimp only
      rw [hcid, ← hesc]
      rfl
    · subst hr
      rw [← hR5, hasst1, hasst2]
      dsimp only
      rw [hcid, ← hesc]
      rfl
  · have hint : intRepr chatId = natRepr chatId.natAbs := by
      simp [intRepr, hneg]
    rw [hint]
    have hhead : (natRepr chatId.natAbs ++ (' ' :: '(' :: R5)).head? = some d := by
      rw [hds]; rfl
    rw [hhead]
    have hcond : ¬ ((some d : Option Char) = some '-') := by simp [hdne]
    rw [if_neg hcond, if_neg hcond]
    rw [hstop.1, hstop.2]
    rw [if_neg (by simp [hds])]
    rw [hsp]
    dsimp only
    rw [hval]
    have hcid : (chatId.natAbs : Int) = chatId := by omega
    rcases hrole with hr | hr
    · subst hr
      rw [← hR5, huser]
      dsimp only
      rw [hcid, ← hesc]
      rfl
    · subst hr
      rw [← hR5, hasst1, hasst2]
      dsimp only
      rw [hcid, ← hesc]
      rfl

/-- C7 (corrected): the add_turn/recent_turns round trip holds for every
turn whose content contains no carriage return and no literal
backslash-n two-character sequence: with a sufficient positive limit the
appended turn reads back with the same role and content, at the last
position, after the previously stored turns; newline characters are
preserved.  (The unrestricted claim fails: see the counterexample.) -/
theorem c7_turn_roundtrip (chatId : Int) (ts role content : String)
    (store : List String) (limit : Nat)
    (hts_len : ts.toList.length = 8) (hts_all : ts.toList.all isTimeChar = true)
    (hrole : role = "user" ∨ role = "assistant")
    (hcr : '\r' ∉ content.toList)
    (hbn : infixOf ['\\', 'n'] content.toList = false)
    (hlim : (parsedChatTurns chatId store).length < limit) :
    recent_turns chatId limit (add_turn chatId ts role content store)
      = parsedChatTurns chatId store ++ [⟨role, content⟩] := by
  have hrt : unescapeContent (escapeContent content) = content :=
    unescape_escape content.toList hcr hbn
  have hp : parsedChatTurns chatId (add_turn chatId ts role content store)
      = parsedChatTurns chatId store ++ [⟨role, content⟩] := by
    unfold add_turn parsedChatTurns
    rw [List.filterMap_append]
    congr 1
    simp [parseTurnLine_turnLine chatId ts role content hts_len hts_all hrole, hrt]
  unfold recent_turns
  rw [hp]
  rw [if_neg (by omega)]
  have hlen : (parsedChatTurns chatId store ++ [(⟨role, content⟩ : DTurn)]).length ≤ limit := by
    rw [List.length_append]
    simp only [List.length_cons, List.length_nil]
    omega
  rw [Nat.sub_eq_zero_of_le hlen, List.drop_zero]

/-- C7 counterexample: a content consisting of the literal characters
backslash, n does not survive the escape-on-write / unescape-on-read
round trip — it reads back as a newline — so the claim as stated (every
appended turn reads back with the same content) is false. -/
theorem c7_roundtrip_counterexample :
    recent_turns 1 10 (add_turn 1 "12:00:00" "user" "a\\nb" [])
      = [⟨"user", "a\nb"⟩] ∧ ("a\nb" : String) ≠ "a\\nb" := by
  constructor
  · decide
  · decide

/-- C7 witness: the round-trip theorem applied at a concrete newline
carrying turn on top of one stored turn. -/
theorem c7_turn_roundtrip_witness :
    recent_turns 1 3
      (add_turn 1 "12:00:00" "user" "x\ny" ["- [11:00:00] chat:1 (assistant) hi"])
      = [⟨"assistant", "hi"⟩, ⟨"user", "x\ny"⟩] := by
  have h := c7_turn_roundtrip 1 "12:00:00" "user" "x\ny"
    ["- [11:00:00] chat:1 (assistant) hi"] 3
    (by decide) (by decide) (Or.inl rfl) (by decide) (by decide) (by decide)
  rw [h]
  decide

/-- C9 (confirmed): profile merges are additive.  For every key: a key
absent from the updates keeps its stored value; and any key's final
value either equals its stored value or is a non-skipped (non-`None`,
non-blank) incoming value — in particular no key is ever removed or
cleared by a merge. -/
theorem c9_upsert_profile_additive (base updates : List (String × PVal)) (k : String) :
    ((updates.all (fun p => p.1 ≠ k)) = true →
      dictGet (upsert_profile base updates) k = dictGet base k)
    ∧ (dictGet (upsert_profile base updates) k = dictGet base k
        ∨ ∃ v, (k, v) ∈ updates ∧ pvalSkipped v = false
            ∧ dictGet (upsert_profile base updates) k = some v)
    ∧ (dictGet (upsert_profile base updates) k = none → dictGet base k = none) := by
  have hset_self : ∀ (m : List (String × PVal)) (v : PVal), dictGet (dictSet m k v) k = some v := by
    intro m v
    unfold dictSet dictGet
    by_cases hm : m.any (fun p => p.1 = k) = true
    · rw [if_pos hm]
      induction m with
      | nil => simp at hm
      | cons p rest ih =>
        by_cases hp : p.1 = k
        · simp [List.find?_cons, hp]
        · simp only [List.any_cons] at hm
          simp only [List.map_cons, if_neg hp]
          rw [List.find?_cons_of_neg _ (by simpa using hp)]
          exact ih (by simpa [hp] using hm)
    · rw [if_neg hm]
      induction m with
      | nil => simp
      | cons p rest ih =>
        simp only [List.any_cons, Bool.or_eq_true] at hm
        push_neg at hm
        have hp : ¬ (p.1 = k) := by
          intro h
          exact hm.1 (by simpa using h)
        simp only [List.cons_append]
        rw [List.find?_cons_of_neg _ (by simpa using hp)]
        exact ih hm.2
  have hset_other : ∀ (m : List (String × PVal)) (k' : String) (v : PVal), k' ≠ k →
      dictGet (dictSet m k' v) k = dictGet m k := by
    intro m k' v hkk
    unfold dictSet dictGet
    by_cases hm : m.any (fun p => p.1 = k') = true
    · rw [if_pos hm]
      clear hm
      induction m with
      | nil => simp
      | cons p rest ih =>
        by_cases hp : p.1 = k'
        · have hpk : ¬ (p.1 = k) := by rw [hp]; exact hkk
          simp only [List.map_cons, if_pos hp]
          rw [List.find?_cons_of_neg _ (by simpa using hkk),
              List.find?_cons_of_neg _ (by simpa using hpk)]
          exact ih
        · simp only [List.map_cons, if_neg hp]
          by_cases hpk : p.1 = k
          · simp [List.find?_cons, hpk]
          · rw [List.find?_cons_of_neg _ (by simpa using hpk),
                List.find?_cons_of_neg _ (by simpa using hpk)]
            exact ih
    · rw [if_neg hm]
      clear hm
      induction m with
      | nil => simp [List.find?, hkk]
      | cons p rest ih =>
        by_cases hpk : p.1 = k
        · simp [List.find?_cons, hpk]
        · simp only [List.cons_append]
          rw [List.find?_cons_of_neg _ (by simpa using hpk),
              List.find?_cons_of_neg _ (by simpa using hpk)]
          exact ih
  suffices h : ∀ (updates base : List (String × PVal)),
      ((updates.all (fun p => p.1 ≠ k)) = true →
        dictGet (upsert_profile base updates) k = dictGet base k)
      ∧ (dictGet (upsert_profile base updates) k = dictGet base k
          ∨ ∃ v, (k, v) ∈ updates ∧ pvalSkipped v = false
              ∧ dictGet (upsert_profile base updates) k = some v) by
    refine ⟨(h updates base).1, (h updates base).2, ?_⟩
    intro hnone
    rcases (h updates base).2 with he | ⟨v, _, _, hv⟩
    · rw [← he]; exact hnone
    · rw [hv] at hnone; exact absurd hnone (by simp)
  intro updates
  induction updates with
  | nil => intro base; exact ⟨fun _ => rfl, Or.inl rfl⟩
  | cons kv rest ih =>
    intro base
    have hstep : upsert_profile base (kv :: rest)
        = upsert_profile (if pvalSkipped kv.2 then base else dictSet base kv.1 kv.2) rest := by
      unfold upsert_profile
      rw [List.foldl_cons]
    by_cases hskip : pvalSkipped kv.2 = true
    · rw [hstep, if_pos hskip]
      refine ⟨fun hall => (ih base).1 ?_, ?_⟩
      · simp only [List.all_cons, Bool.and_eq_true] at hall
        exact hall.2
      · rcases (ih base).2 with he | ⟨v, hv1, hv2, hv3⟩
        · exact Or.inl he
        · exact Or.inr ⟨v, List.mem_cons_of_mem kv hv1, hv2, hv3⟩
    · rw [hstep, if_neg hskip]
      constructor
      · intro hall
        simp only [List.all_cons, Bool.and_eq_true] at hall
        have hne : kv.1 ≠ k := by simpa using hall.1
        rw [(ih (dictSet base kv.1 kv.2)).1 hall.2]
        exact hset_other base kv.1 kv.2 hne
      · rcases (ih (dictSet base kv.1 kv.2)).2 with he | ⟨v, hv1, hv2, hv3⟩
        · by_cases hkk : kv.1 = k
          · refine Or.inr ⟨kv.2, ?_, by simpa using hskip, ?_⟩
            · subst hkk
              exact List.mem_cons_self kv rest
            · rw [he, hkk]
              exact hset_self base kv.2
          · rw [he, hset_other base kv.1 kv.2 hkk]
            exact Or.inl rfl
        · exact Or.inr ⟨v, List.mem_cons_of_mem kv hv1, hv2, hv3⟩

/-- C9 witness: the additive-merge theorem at a concrete profile — a
key absent from the updates keeps its stored value. -/
theorem c9_upsert_profile_additive_witness :
    dictGet (upsert_profile [("a", .vStr "v")] [("b", .vStr "x"), ("c", .vStr "")]) "a"
      = some (.vStr "v") := by
  have h := (c9_upsert_profile_additive [("a", .vStr "v")]
    [("b", .vStr "x"), ("c", .vStr "")] "a").1 (by decide)
  rw [h]
  decide

theorem pad2_spec {n : Nat} (h2 : n < 100) :
    (pad2 n).toList.length = 2 ∧ (pad2 n).toList.all Char.isDigit = true := by
  by_cases h : n < 10
  · unfold pad2
    rw [if_pos h]
    have e : ("0" ++ (⟨natRepr n⟩ : String)).toList = '0' :: natRepr n := by
      rw [toList_append]
      have : ("0" : String).toList = ['0'] := by decide
      rw [this]
      rfl
    rw [e]
    refine ⟨by simp [natRepr_length1 h], ?_⟩
    simp [List.all_cons, (natRepr_spec n).2.1]
  · unfold pad2
    rw [if_neg h]
    have e : ((⟨natRepr n⟩ : String) : String).toList = natRepr n := rfl
    rw [e]
    exact ⟨natRepr_length2 (Nat.not_lt.mp h) h2, (natRepr_spec n).2.1⟩

theorem normalize_date_parts_norm {y mo d : Nat} {s : String}
    (h : normalize_date_parts y mo d = some s) : DateNormalForm s := by
  unfold normalize_date_parts at h
  split_ifs at h with h1 h2 h3
  simp only [Bool.or_eq_true, decide_eq_true_eq, not_or] at h1 h2 h3
  have hy1 : 2000 ≤ y := by omega
  have hy2 : y ≤ 2100 := by omega
  have hmo1 : 1 ≤ mo := by omega
  have hmo2 : mo ≤ 12 := by omega
  have hd1 : 1 ≤ d := by omega
  have hd2 : d ≤ 31 := by omega
  have hs : s = (⟨natRepr y⟩ : String) ++ "-" ++ pad2 mo ++ "-" ++ pad2 d :=
    (Option.some.inj h).symm
  have hylen : (natRepr y).length = 4 := natRepr_length4 (by omega) (by omega)
  have hmo := pad2_spec (n := mo) (by omega)
  have hd := pad2_spec (n := d) (by omega)
  refine ⟨y, mo, d, hy1, hy2, hmo1, hmo2, hd1, hd2, hs, ?_, hylen,
    (natRepr_spec y).2.1, hmo.1, hmo.2, hd.1, hd.2⟩
  rw [hs]
  simp only [toList_append, List.length_append]
  have edash : ("-" : String).toList = ['-'] := by decide
  rw [edash]
  have e1 : ((⟨natRepr y⟩ : String) : String).toList = natRepr y := rfl
  rw [e1, hylen, hmo.1, hd.1]
  rfl

theorem numDateScanAux_norm : ∀ (f : Nat) (l : List Char) (s : String),
    s ∈ numDateScanAux f l → ∃ y mo d, normalize_date_parts y mo d = some s := by
  intro f
  induction f with
  | zero =>
    intro l s h
    simp [numDateScanAux] at h
  | succ n ih =>
    intro l s h
    cases l with
    | nil => simp [numDateScanAux] at h
    | cons c rest =>
      unfold numDateScanAux at h
      split at h
      · rename_i y mo d r htry
        split at h
        · rename_i s2 hnorm
          simp only [List.mem_cons] at h
          rcases h with rfl | h
          · exact ⟨y, mo, d, hnorm⟩
          · exact ih r s h
        · exact ih r s h
      · exact ih rest s h

theorem monthScanAux_norm : ∀ (f : Nat) (pw : Bool) (l : List Char) (s : String),
    s ∈ monthScanAux f pw l → ∃ y mo d, normalize_date_parts y mo d = some s := by
  intro f
  induction f with
  | zero =>
    intro pw l s h
    simp [monthScanAux] at h
  | succ n ih =>
    intro pw l s h
    cases l with
    | nil => simp [monthScanAux] at h
    | cons c rest =>
      unfold monthScanAux at h
      split at h
      · exact ih _ rest s h
      · split at h
        · rename_i y mo d r htry
          split at h
          · rename_i s2 hnorm
            simp only [List.mem_cons] at h
            rcases h with rfl | h
            · exact ⟨y, mo, d, hnorm⟩
            · exact ih true r s h
          · exact ih true r s h
        · exact ih _ rest s h

theorem extract_date_candidates_norm (text : String) (s : String)
    (h : s ∈ extract_date_candidates text) :
    ∃ y mo d, normalize_date_parts y mo d = some s := by
  unfold extract_date_candidates at h
  have h2 := ((dedupFirstAux_mem s _ []).mp h).1
  rw [List.mem_append] at h2
  rcases h2 with h2 | h2
  · exact numDateScanAux_norm _ _ s h2
  · exact monthScanAux_norm _ _ _ s h2

theorem hintAt_build (srs : List SearchResult) (fps : List FetchedPage) (i : Nat)
    (h1 : 1 ≤ i) (h2 : i ≤ max srs.length fps.length) :
    hintAt (build_source_date_hints srs fps).1 i = sourceDateHint srs fps i := by
  unfold build_source_date_hints hintAt
  simp only
  rw [List.getD_eq_getElem?_getD, List.getElem?_map,
      List.getElem?_range (show i - 1 < max srs.length fps.length by omega)]
  simp only [Option.map_some', Option.getD_some]
  congr 1
  omega

theorem sourceDateHint_norm (srs : List SearchResult) (fps : List FetchedPage) (i : Nat) :
    sourceDateHint srs fps i = noDateMarker ∨ DateNormalForm (sourceDateHint srs fps i) := by
  unfold sourceDateHint
  dsimp only
  split
  · rename_i d hd
    right
    have hmem : d ∈ (([(srs.getD (i - 1) ⟨"", "", ""⟩).title,
        (srs.getD (i - 1) ⟨"", "", ""⟩).description,
        (fps.getD (i - 1) ⟨"", "", ""⟩).title,
        (⟨(fps.getD (i - 1) ⟨"", "", ""⟩).text.toList.take 1500⟩ : String)].map
          extract_date_candidates).flatten : List String) := List.mem_of_mem_head? hd
    rw [List.mem_flatten] at hmem
    obtain ⟨part, hp1, hp2⟩ := hmem
    rw [List.mem_map] at hp1
    obtain ⟨src, _, rfl⟩ := hp1
    obtain ⟨y, mo, dd, hn⟩ := extract_date_candidates_norm src d hp2
    exact normalize_date_parts_norm hn
  · left; rfl

theorem allowed_dates_mem (srs : List SearchResult) (fps : List FetchedPage) :
    ∀ s, s ∈ (build_source_date_hints srs fps).2 ↔
      (s ≠ noDateMarker ∧ ∃ i, 1 ≤ i ∧ i ≤ max srs.length fps.length
          ∧ hintAt (build_source_date_hints srs fps).1 i = s) := by
  intro s
  constructor
  · intro hs
    unfold build_source_date_hints at hs
    simp only at hs
    rw [List.mem_filter] at hs
    obtain ⟨hmem, hne⟩ := hs
    rw [List.mem_map] at hmem
    obtain ⟨j, hj, hfj⟩ := hmem
    rw [List.mem_range] at hj
    refine ⟨by simpa using hne, j + 1, by omega, by omega, ?_⟩
    rw [hintAt_build srs fps (j + 1) (by omega) (by omega)]
    simpa using hfj
  · rintro ⟨hne, i, hi1, hi2, hv⟩
    unfold build_source_date_hints
    simp only
    rw [List.mem_filter]
    constructor
    · rw [List.mem_map]
      refine ⟨i - 1, by rw [List.mem_range]; omega, ?_⟩
      rw [show i - 1 + 1 = i by omega]
      rw [hintAt_build srs fps i hi1 hi2] at hv
      exact hv
    · simpa using hne

/-- C10 (confirmed): every date candidate and every non-marker source
hint is in the single normal form produced by `_normalize_date_parts` —
a zero-padded length-10 YYYY-MM-DD digit string with 2000 ≤ year ≤ 2100,
1 ≤ month ≤ 12, 1 ≤ day ≤ 31; the candidate list is duplicate-free and a
sublist (first occurrences, order preserved) of the raw scan output; and
the allowed date set holds exactly the non-marker hint values. -/
theorem c10_date_normal_form (text : String) (srs : List SearchResult)
    (fps : List FetchedPage) :
    (∀ s ∈ extract_date_candidates text, DateNormalForm s)
    ∧ (extract_date_candidates text).Nodup
    ∧ List.Sublist (extract_date_candidates text)
        (numDateScanAux text.toList.length text.toList
          ++ monthScanAux text.toList.length false text.toList)
    ∧ (∀ i, 1 ≤ i → i ≤ max srs.length fps.length →
        hintAt (build_source_date_hints srs fps).1 i = noDateMarker
        ∨ DateNormalForm (hintAt (build_source_date_hints srs fps).1 i))
    ∧ (∀ s, s ∈ (build_source_date_hints srs fps).2 ↔
        (s ≠ noDateMarker ∧ ∃ i, 1 ≤ i ∧ i ≤ max srs.length fps.length
            ∧ hintAt (build_source_date_hints srs fps).1 i = s)) := by
  refine ⟨?_, ?_, ?_, ?_, ?_⟩
  · intro s hs
    obtain ⟨y, mo, d, hn⟩ := extract_date_candidates_norm text s hs
    exact normalize_date_parts_norm hn
  · exact dedupFirstAux_nodup _ _
  · unfold extract_date_candidates
    exact dedupFirstAux_sublist _ _
  · intro i hi1 hi2
    rw [hintAt_build srs fps i hi1 hi2]
    exact sourceDateHint_norm srs fps i
  · exact allowed_dates_mem srs fps

/-- C10 witness: the normal-form theorem applied at a concrete text and
source list — the mixed-format text yields normal-form candidates and
hints. -/
theorem c10_date_normal_form_witness :
    DateNormalForm "2026-02-18"
    ∧ (extract_date_candidates "2026年2月18日 February 17, 2026").Nodup := by
  have h := c10_date_normal_form "2026年2月18日 February 17, 2026"
    [⟨"t 2026-02-18", "u", ""⟩] []
  refine ⟨?_, h.2.1⟩
  have h2 := (h.2.2.2.1) 1 (by decide) (by decide)
  have e : hintAt (build_source_date_hints [⟨"t 2026-02-18", "u", ""⟩] []).1 1
      = "2026-02-18" := by decide
  rcases h2 with h2 | h2
  · rw [e] at h2
    exact absurd h2 (by decide)
  · rw [e] at h2
    exact h2

theorem infix_dropWhile {p : Char → Bool} {c₀ : Char} {pt : List Char}
    (hc : p c₀ = false) : ∀ l : List Char, (c₀ :: pt) <:+: l →
      (c₀ :: pt) <:+: l.dropWhile p := by
  intro l h
  induction l with
  | nil => simp at h
  | cons x rest ih =>
    by_cases hx : p x = true
    · rw [List.dropWhile_cons_of_pos hx]
      apply ih
      rcases List.infix_cons_iff.mp h with hpre | hinf
      · exfalso
        obtain ⟨t, ht⟩ := hpre
        have : c₀ = x := by
          have := congrArg (List.head?) ht
          simpa using this
        rw [this] at hc
        rw [hc] at hx
        exact Bool.false_ne_true hx
      · exact hinf
    · rw [List.dropWhile_cons_of_neg hx]
      exact h

theorem infix_stripChars {pat : List Char} (hne : pat ≠ [])
    (hall : pat.all (fun c => !isWsChar c) = true) :
    ∀ l : List Char, pat <:+: l → pat <:+: stripChars l := by
  obtain ⟨c₀, pt, rfl⟩ := List.exists_cons_of_ne_nil hne
  intro l h
  have hc : isWsChar c₀ = false := by
    simp only [List.all_cons, Bool.and_eq_true, Bool.not_eq_true'] at hall
    exact hall.1
  have hlast : ∀ c, ((c₀ :: pt).reverse).head? = some c → isWsChar c = false := by
    intro c hcl
    have hmem : c ∈ (c₀ :: pt).reverse := List.mem_of_mem_head? hcl
    rw [List.mem_reverse] at hmem
    have := List.all_eq_true.mp hall c hmem
    simpa using this
  unfold stripChars
  have h1 : (c₀ :: pt) <:+: l.dropWhile isWsChar := infix_dropWhile hc l h
  have h2 : (c₀ :: pt).reverse <:+: (l.dropWhile isWsChar).reverse :=
    List.reverse_infix.mpr h1
  obtain ⟨d₀, dt, hd⟩ := List.exists_cons_of_ne_nil
    (show (c₀ :: pt).reverse ≠ [] by simp)
  have hd0 : isWsChar d₀ = false := hlast d₀ (by rw [hd]; rfl)
  rw [hd] at h2
  have h3 := infix_dropWhile hd0 _ h2
  rw [← hd] at h3
  have h4 := List.reverse_infix.mpr h3
  rwa [List.reverse_reverse] at h4

theorem infix_rstripChars {pat : List Char} (hne : pat ≠ [])
    (hall : pat.all (fun c => !isWsChar c) = true) :
    ∀ l : List Char, pat <:+: l → pat <:+: (l.reverse.dropWhile isWsChar).reverse := by
  intro l h
  have hlast : ∀ c, (pat.reverse).head? = some c → isWsChar c = false := by
    intro c hcl
    have hmem : c ∈ pat.reverse := List.mem_of_mem_head? hcl
    rw [List.mem_reverse] at hmem
    have := List.all_eq_true.mp hall c hmem
    simpa using this
  have h2 : pat.reverse <:+: l.reverse := List.reverse_infix.mpr h
  obtain ⟨d₀, dt, hd⟩ := List.exists_cons_of_ne_nil
    (show pat.reverse ≠ [] by simpa using hne)
  have hd0 : isWsChar d₀ = false := hlast d₀ (by rw [hd]; rfl)
  rw [hd] at h2
  have h3 := infix_dropWhile hd0 _ h2
  rw [← hd] at h3
  have h4 := List.reverse_infix.mpr h3
  rwa [List.reverse_reverse] at h4

theorem containsSub_of_infix {s pat : String} (h : pat.toList <:+: s.toList) :
    containsSub s pat = true := (infixOf_iff pat.toList s.toList).mpr h

theorem containsSub_append_mark (a m : String) :
    containsSub (a ++ m) m = true := by
  apply containsSub_of_infix
  rw [toList_append]
  exact (List.suffix_append a.toList m.toList).isInfix

theorem fallbackBullet_marker (hints : List String) (i : Nat) (part b : String)
    (h : fallbackBullet hints i part = some b) :
    containsSub b ("[" ++ (⟨natRepr i⟩ : String) ++ "]") = true := by
  unfold fallbackBullet at h
  split at h
  · exact absurd h (by simp)
  · rename_i l0 hl0
    dsimp only at h
    by_cases hcont : containsSub (fallbackLine1 hints i (pyStrip l0))
        ("[" ++ (⟨natRepr i⟩ : String) ++ "]") = true
    · rw [if_pos hcont] at h
      rw [← Option.some.inj h]
      exact hcont
    · rw [if_neg hcont] at h
      rw [← Option.some.inj h]
      exact containsSub_append_mark _ _

/-- C4 (corrected): the citation-diversity fallback is assembled by
direct string composition — each selected source's first summary bullet
with the date hint injected when the bullet lacks a date and the `[i]`
marker forced, so every emitted bullet contains its own index's marker —
but it does NOT bypass the language model entirely: it issues exactly
one per-source summarization model call (`min maxItems srs.length` calls
in total; the counterexample shows the call count is non-zero). -/
theorem c4_deterministic_fallback (oracle : Nat → String) (k : Nat)
    (srs : List SearchResult) (hints : List String) (maxItems : Nat) :
    (deterministic_news_fallback oracle k srs hints maxItems).2
      = k + min maxItems srs.length
    ∧ (∀ i part b, fallbackBullet hints i part = some b →
        containsSub b ("[" ++ (⟨natRepr i⟩ : String) ++ "]") = true)
    ∧ (∀ i line, hintAt hints i ≠ noDateMarker → hintAt hints i ≠ "" →
        hasFullDate line = false →
        containsSub (⟨line.toList.take 40⟩ : String) "未提供日期" = false →
        fallbackLine1 hints i line
          = "- **" ++ hintAt hints i ++ "** " ++ stripBulletHead line) := by
  refine ⟨?_, fun i part b h => fallbackBullet_marker hints i part b h, ?_⟩
  · unfold deterministic_news_fallback
    by_cases hn : min maxItems srs.length = 0
    · rw [hn]
      simp [hn]
    · rw [if_neg hn]
      dsimp only
      split <;> rfl
  · intro i line hmark hempty hdate hcont
    unfold fallbackLine1
    rw [if_neg hempty]
    rw [if_pos (by simp [hmark, hdate])]
    have hcont2 : containsSub (⟨line.toList.take 40⟩ : String) "未提供日期" ≠ true := by
      rw [hcont]
      exact Bool.false_ne_true
    rw [if_neg hcont2]

/-- C4 counterexample: with one search result the fallback advances the
model-call counter from 0 to 1 (the per-source summarization call) while
producing its bullet — contradicting "no language-model call". -/
theorem c4_fallback_counterexample :
    (deterministic_news_fallback (fun _ => "- x") 0 [⟨"t", "u", ""⟩] [noDateMarker] 8).2 = 1
    ∧ (deterministic_news_fallback (fun _ => "- x") 0 [⟨"t", "u", ""⟩] [noDateMarker] 8).1
        = "以下是今天的一些國際要聞摘要：\n\n- x [1]"
    ∧ (1 : Nat) ≠ 0 := by
  refine ⟨by decide, by decide, by decide⟩

/-- C4 witness: the fallback-shape theorem applied at one concrete
source — the emitted bullet carries its own marker. -/
theorem c4_deterministic_fallback_witness :
    containsSub "- **2026-02-18** y [1]" ("[" ++ (⟨natRepr 1⟩ : String) ++ "]") = true := by
  have h := (c4_deterministic_fallback (fun _ => "- y") 0 [⟨"t", "u", ""⟩]
    ["2026-02-18"] 8).2.1
  exact h 1 "- y" "- **2026-02-18** y [1]" (by decide)

theorem citScan_sub : ∀ (f : Nat) (l : List Char), l.length ≤ f →
    ∀ (a ds b : List Char), l = a ++ '[' :: (ds ++ ']' :: b) →
      ds ≠ [] → ds.length ≤ 3 → ds.all Char.isDigit = true →
      digitsToNat ds ∈ citScanAux f l := by
  intro f
  induction f with
  | zero =>
    intro l hl a ds b hls _ _ _
    subst hls
    simp at hl
  | succ n ih =>
    intro l hl a ds b hls hne hlen3 hdig
    subst hls
    have hstop := takeWhile_append_stop (p := Char.isDigit) ds ']' b hdig (by decide)
    cases a with
    | nil =>
      simp only [List.nil_append]
      unfold citScanAux
      rw [if_pos rfl]
      simp only [hstop.1, hstop.2]
      rw [if_pos ?hcnd]
      case hcnd =>
        have h1 : 1 ≤ ds.length := List.length_pos.mpr hne
        simp [h1, hlen3]
      exact List.mem_cons_self _ _
    | cons a0 a1 =>
      simp only [List.cons_append] at hl ⊢
      have hrest_len : (a1 ++ '[' :: (ds ++ ']' :: b)).length ≤ n := by
        simp only [List.length_cons] at hl
        omega
      by_cases ha0 : a0 = '['
      · subst ha0
        unfold citScanAux
        rw [if_pos rfl]
        have hocc : (a1 ++ '[' :: (ds ++ ']' :: b))[a1.length]? = some '[' := by
          rw [List.getElem?_append, if_neg (by omega)]
          simp
        by_cases hmatch : (1 ≤ (List.takeWhile Char.isDigit (a1 ++ '[' :: (ds ++ ']' :: b))).length
            && (List.takeWhile Char.isDigit (a1 ++ '[' :: (ds ++ ']' :: b))).length ≤ 3
            && ((a1 ++ '[' :: (ds ++ ']' :: b)).drop
                  (List.takeWhile Char.isDigit (a1 ++ '[' :: (ds ++ ']' :: b))).length).head?
                == some ']') = true
        · rw [if_pos hmatch]
          simp only [Bool.and_eq_true, beq_iff_eq] at hmatch
          obtain ⟨⟨hm1, hm2⟩, hm3⟩ := hmatch
          have hdsp : List.takeWhile Char.isDigit (a1 ++ '[' :: (ds ++ ']' :: b))
              <+: (a1 ++ '[' :: (ds ++ ']' :: b)) := List.takeWhile_prefix _
          have hkey : (List.takeWhile Char.isDigit (a1 ++ '[' :: (ds ++ ']' :: b))).length + 1
              ≤ a1.length := by
            set dsl := (List.takeWhile Char.isDigit (a1 ++ '[' :: (ds ++ ']' :: b))).length with hdsl
            by_contra hcon
            have hle : a1.length ≤ dsl := by omega
            rcases Nat.lt_or_ge a1.length dsl with hlt | hge
            · have hin : (a1 ++ '[' :: (ds ++ ']' :: b))[a1.length]?
                  = (List.takeWhile Char.isDigit (a1 ++ '[' :: (ds ++ ']' :: b)))[a1.length]? := by
                obtain ⟨t, ht⟩ := hdsp
                conv_lhs => rw [← ht]
                rw [List.getElem?_append, if_pos (by omega)]
              rw [hocc] at hin
              have hmem : '[' ∈ List.takeWhile Char.isDigit (a1 ++ '[' :: (ds ++ ']' :: b)) :=
                List.getElem?_mem hin.symm
              have := List.mem_takeWhile_imp hmem
              exact absurd this (by decide)
            · have heq : a1.length = dsl := by omega
              rw [List.head?_drop, ← heq, hocc] at hm3
              exact absurd hm3 (by decide)
          rw [List.drop_append_of_le_length (by omega)]
          refine List.mem_cons_of_mem _ ?_
          exact ih _ (by rw [List.length_append] at hrest_len ⊢; simp at hrest_len ⊢; omega)
            _ ds b rfl hne hlen3 hdig
        · rw [if_neg hmatch]
          exact ih _ hrest_len _ ds b rfl hne hlen3 hdig
      · unfold citScanAux
        rw [if_neg ha0]
        exact ih _ hrest_len _ ds b rfl hne hlen3 hdig

theorem digit_not_ws {c : Char} (h : c.isDigit = true) : isWsChar c = false := by
  have hn : 48 ≤ c.toNat ∧ c.toNat ≤ 57 := by
    simp only [Char.isDigit, Bool.and_eq_true, decide_eq_true_eq] at h
    exact ⟨h.1, h.2⟩
  simp only [isWsChar, Bool.or_eq_false_iff]
  refine ⟨⟨⟨⟨⟨?_, ?_⟩, ?_⟩, ?_⟩, ?_⟩, ?_⟩
  · rw [decide_eq_false_iff_not]; intro hc; subst hc; exact absurd hn (by decide)
  · rw [decide_eq_false_iff_not]; intro hc; subst hc; exact absurd hn (by decide)
  · rw [decide_eq_false_iff_not]; intro hc; subst hc; exact absurd hn (by decide)
  · rw [decide_eq_false_iff_not]; intro hc; subst hc; exact absurd hn (by decide)
  · rw [decide_eq_false_iff_not]; intro hc; omega
  · rw [decide_eq_false_iff_not]; intro hc; omega

theorem natRepr_length_le3 {n : Nat} (h : n ≤ 999) : (natRepr n).length ≤ 3 := by
  by_cases h1 : n < 10
  · rw [natRepr_length1 h1]; omega
  · by_cases h2 : n < 100
    · rw [natRepr_length2 (by omega) h2]; omega
    · rw [natRepr_ge10 (by omega), List.length_append,
        natRepr_length2 (show 10 ≤ n / 10 by omega) (by omega)]
      simp

theorem marker_chars (i : Nat) :
    ("[" ++ (⟨natRepr i⟩ : String) ++ "]").toList = '[' :: (natRepr i ++ [']']) := by
  rw [toList_append, toList_append]
  rfl

theorem marker_no_ws (i : Nat) :
    (("[" ++ (⟨natRepr i⟩ : String) ++ "]").toList.all (fun c => !isWsChar c)) = true := by
  rw [marker_chars]
  simp only [List.all_cons, List.all_append, Bool.and_eq_true]
  refine ⟨by decide, ?_, by decide⟩
  rw [List.all_eq_true]
  intro c hc
  have hd := List.all_eq_true.mp (natRepr_spec i).2.1 c hc
  simp [digit_not_ws hd]

theorem cit_mem_of_containsSub {text : String} {i : Nat} (h999 : i ≤ 999)
    (h : containsSub text ("[" ++ (⟨natRepr i⟩ : String) ++ "]") = true) :
    i ∈ citsOf text := by
  have hinf := (infixOf_iff _ _).mp h
  obtain ⟨s, t, hst⟩ := hinf
  rw [marker_chars] at hst
  have hspec := natRepr_spec i
  have hdec : text.toList = s ++ '[' :: (natRepr i ++ ']' :: t) := by
    rw [← hst]
    simp [List.append_assoc]
  have hmem := citScan_sub text.toList.length text.toList le_rfl s (natRepr i) t hdec
    hspec.1 (natRepr_length_le3 h999) hspec.2.1
  rw [hspec.2.2] at hmem
  exact hmem

theorem joinLines_mem_infix : ∀ (ls : List String) (b : String), b ∈ ls →
    b.toList <:+: (joinLines ls).toList := by
  intro ls
  induction ls with
  | nil => intro b h; simp at h
  | cons x xs ih =>
    intro b h
    cases xs with
    | nil =>
      have hb : b = x := by simpa using h
      subst hb
      exact List.infix_refl _
    | cons y ys =>
      rw [List.mem_cons] at h
      have hjl : joinLines (x :: y :: ys) = (x ++ "\n") ++ joinLines (y :: ys) := rfl
      rcases h with rfl | h
      · rw [hjl, toList_append, toList_append]
        exact ((List.prefix_append b.toList "\n".toList).trans
          (List.prefix_append _ _)).isInfix
      · obtain ⟨u, v, huv⟩ := ih b h
        refine ⟨(x ++ "\n").toList ++ u, v, ?_⟩
        rw [hjl]
        rw [show (x ++ "\n" ++ joinLines (y :: ys)).toList
            = (x ++ "\n").toList ++ (joinLines (y :: ys)).toList from toList_append _ _]
        rw [← huv]
        simp [List.append_assoc]

theorem fallback_bullet_mem (oracle : Nat → String) (k : Nat) (hints : List String)
    (n i : Nat) (b : String) (hi : i < n)
    (hb : fallbackBullet hints (i + 1) (oracle (k + i)) = some b) :
    b ∈ (((List.range n).map (fun j => oracle (k + j))).enum).filterMap
      (fun p => fallbackBullet hints (p.1 + 1) p.2) := by
  have hparts : ((List.range n).map (fun j => oracle (k + j)))[i]? = some (oracle (k + i)) := by
    rw [List.getElem?_map, List.getElem?_range hi]
    rfl
  have henum : (((List.range n).map (fun j => oracle (k + j))).enum)[i]?
      = some (i, oracle (k + i)) := by
    rw [List.getElem?_enum, hparts]
    rfl
  exact List.mem_filterMap.mpr ⟨(i, oracle (k + i)), List.getElem?_mem henum, hb⟩

theorem fallback_cit_mem (oracle : Nat → String) (k : Nat)
    (srs : List SearchResult) (hints : List String) (maxItems : Nat)
    (i : Nat) (b : String)
    (hi : i < min maxItems srs.length) (hi999 : i + 1 ≤ 999)
    (hb : fallbackBullet hints (i + 1) (oracle (k + i)) = some b) :
    i + 1 ∈ extract_citation_indices
      (pyStrip (deterministic_news_fallback oracle k srs hints maxItems).1)
      srs.length := by
  have hbmem := fallback_bullet_mem oracle k hints (min maxItems srs.length) i b hi hb
  have hn : ¬ (min maxItems srs.length = 0) := by omega
  have hbul : ¬ ((((List.range (min maxItems srs.length)).map
        (fun j => oracle (k + j))).enum).filterMap
        (fun p => fallbackBullet hints (p.1 + 1) p.2)).isEmpty = true := by
    rw [List.isEmpty_iff]
    exact List.ne_nil_of_mem hbmem
  have hfb : (deterministic_news_fallback oracle k srs hints maxItems).1 =
      "以下是今天的一些國際要聞摘要：" ++ "\n\n" ++ joinLines
        ((((List.range (min maxItems srs.length)).map (fun j => oracle (k + j))).enum).filterMap
          (fun p => fallbackBullet hints (p.1 + 1) p.2)) := by
    unfold deterministic_news_fallback
    rw [if_neg hn]
    dsimp only
    rw [if_neg hbul]
  have hmark := fallbackBullet_marker hints (i + 1) (oracle (k + i)) b hb
  have hinf1 : ("[" ++ (⟨natRepr (i + 1)⟩ : String) ++ "]").toList <:+: b.toList :=
    (infixOf_iff _ _).mp hmark
  have hinf2 : b.toList <:+: (joinLines
      ((((List.range (min maxItems srs.length)).map (fun j => oracle (k + j))).enum).filterMap
        (fun p => fallbackBullet hints (p.1 + 1) p.2))).toList :=
    joinLines_mem_infix _ b hbmem
  have hinf3 : ("[" ++ (⟨natRepr (i + 1)⟩ : String) ++ "]").toList <:+:
      (deterministic_news_fallback oracle k srs hints maxItems).1.toList := by
    rw [hfb]
    rw [show ("以下是今天的一些國際要聞摘要：" ++ "\n\n" ++ joinLines
        ((((List.range (min maxItems srs.length)).map (fun j => oracle (k + j))).enum).filterMap
          (fun p => fallbackBullet hints (p.1 + 1) p.2))).toList
      = ("以下是今天的一些國際要聞摘要：" ++ "\n\n").toList ++ (joinLines
        ((((List.range (min maxItems srs.length)).map (fun j => oracle (k + j))).enum).filterMap
          (fun p => fallbackBullet hints (p.1 + 1) p.2))).toList from toList_append _ _]
    exact (hinf1.trans hinf2).trans (List.suffix_append _ _).isInfix
  have hinf4 : ("[" ++ (⟨natRepr (i + 1)⟩ : String) ++ "]").toList <:+:
      (pyStrip (deterministic_news_fallback oracle k srs hints maxItems).1).toList := by
    refine infix_stripChars ?_ (marker_no_ws (i + 1)) _ hinf3
    rw [marker_chars]
    simp
  have hcits : i + 1 ∈ citsOf (pyStrip (deterministic_news_fallback oracle k srs hints
      maxItems).1) :=
    cit_mem_of_containsSub hi999 ((infixOf_iff _ _).mpr hinf4)
  unfold extract_citation_indices
  rw [dedupFirstAux_mem]
  refine ⟨List.mem_filter.mpr ⟨hcits, ?_⟩, by simp⟩
  have : i + 1 ≤ srs.length := by omega
  simp only [Bool.and_eq_true, decide_eq_true_eq]
  omega

theorem fallback_two_citations (oracle : Nat → String) (k : Nat)
    (srs : List SearchResult) (hints : List String) (maxItems : Nat)
    (i j : Nat) (bi bj : String) (hij : i ≠ j)
    (hi : i < min maxItems srs.length) (hj : j < min maxItems srs.length)
    (hi999 : i + 1 ≤ 999) (hj999 : j + 1 ≤ 999)
    (hbi : fallbackBullet hints (i + 1) (oracle (k + i)) = some bi)
    (hbj : fallbackBullet hints (j + 1) (oracle (k + j)) = some bj) :
    2 ≤ (extract_citation_indices
          (pyStrip (deterministic_news_fallback oracle k srs hints maxItems).1)
          srs.length).length := by
  exact two_mem_length_ge
    (fallback_cit_mem oracle k srs hints maxItems i bi hi hi999 hbi)
    (fallback_cit_mem oracle k srs hints maxItems j bj hj hj999 hbj)
    (by omega)

theorem cits_ne_empty {s : String} {N : Nat}
    (h : 2 ≤ (extract_citation_indices s N).length) : s ≠ "" := by
  intro he
  subst he
  simp [extract_citation_indices, citsOf, citScanAux, dedupFirstAux] at h

/-- C2 (corrected): on a news turn with non-empty results whose text has
fewer than 2 distinct in-range citations across ≥3 bullets, one
corrective retry is issued; if the retried text still fails, the
deterministic per-source fallback replaces it exactly when the fallback
strip is non-blank (otherwise the failing text is kept unchanged — the
original claim's guarantee of ≥2 distinct citations in the final text
is refuted by `c2_diversity_counterexample`); whenever two fallback
bullets at distinct source indices survive, the text installed by the
diversity-fallback stage cites at least 2 distinct in-range indices.
No stronger guarantee about the delivered text holds: the stage output
still passes through the second Traditional-Chinese rewrite (an
unconstrained model call, `stLangRewrite`) and the source-links
handling (`stNewsLinks`, whose `strip_source_links_block` can cut the
text) before delivery. -/
theorem c2_citation_diversity (ctx : TurnCtx) (oracle : Nat → String) (t : String) (k : Nat)
    (hweb : ctx.toolWeb = true) (hnews : ctx.isNews = true)
    (hres : ctx.searchResults.isEmpty = false)
    (hfail : news_has_diverse_citations t ctx.searchResults.length = false) :
    stDiverseRetry ctx oracle (t, k) = (oracle k, k + 1)
    ∧ (news_has_diverse_citations (oracle k) ctx.searchResults.length = false →
        stDiverseFallback ctx oracle (stDiverseRetry ctx oracle (t, k)) =
          (if pyStrip (deterministic_news_fallback oracle (k + 1) ctx.searchResults
                ctx.dateHints (min ctx.newsMaxItems ctx.searchResults.length)).1 ≠ "" then
              pyStrip (deterministic_news_fallback oracle (k + 1) ctx.searchResults
                ctx.dateHints (min ctx.newsMaxItems ctx.searchResults.length)).1
            else oracle k,
           (deterministic_news_fallback oracle (k + 1) ctx.searchResults
                ctx.dateHints (min ctx.newsMaxItems ctx.searchResults.length)).2))
    ∧ (∀ i j bi bj, i ≠ j →
        i < min ctx.newsMaxItems ctx.searchResults.length →
        j < min ctx.newsMaxItems ctx.searchResults.length →
        i + 1 ≤ 999 → j + 1 ≤ 999 →
        fallbackBullet ctx.dateHints (i + 1) (oracle (k + 1 + i)) = some bi →
        fallbackBullet ctx.dateHints (j + 1) (oracle (k + 1 + j)) = some bj →
        news_has_diverse_citations (oracle k) ctx.searchResults.length = false →
        2 ≤ (extract_citation_indices
              ((stDiverseFallback ctx oracle (stDiverseRetry ctx oracle (t, k))).1)
              ctx.searchResults.length).length) := by
  have h1 : stDiverseRetry ctx oracle (t, k) = (oracle k, k + 1) := by
    simp [stDiverseRetry, hweb, hnews, hres, hfail]
  have h2 : ∀ hfail2 : news_has_diverse_citations (oracle k) ctx.searchResults.length = false,
      stDiverseFallback ctx oracle (stDiverseRetry ctx oracle (t, k)) =
        (if pyStrip (deterministic_news_fallback oracle (k + 1) ctx.searchResults
              ctx.dateHints (min ctx.newsMaxItems ctx.searchResults.length)).1 ≠ "" then
            pyStrip (deterministic_news_fallback oracle (k + 1) ctx.searchResults
              ctx.dateHints (min ctx.newsMaxItems ctx.searchResults.length)).1
          else oracle k,
         (deterministic_news_fallback oracle (k + 1) ctx.searchResults
              ctx.dateHints (min ctx.newsMaxItems ctx.searchResults.length)).2) := by
    intro hfail2
    rw [h1]
    simp [stDiverseFallback, hweb, hnews, hres, hfail2]
  refine ⟨h1, h2, ?_⟩
  intro i j bi bj hij hi hj hi9 hj9 hbi hbj hfail2
  rw [h2 hfail2]
  have hcit := fallback_two_citations oracle (k + 1) ctx.searchResults ctx.dateHints
    (min ctx.newsMaxItems ctx.searchResults.length) i j bi bj hij
    (by omega) (by omega) hi9 hj9 hbi hbj
  have hne := cits_ne_empty hcit
  dsimp only
  rw [if_pos hne]
  exact hcit

/-- Witness for `c2_citation_diversity` at a concrete two-source context
whose retry stays undiverse and whose two per-source summaries survive. -/
theorem c2_citation_diversity_witness :
    (c2wCtx.toolWeb = true ∧ c2wCtx.isNews = true
      ∧ c2wCtx.searchResults.isEmpty = false
      ∧ news_has_diverse_citations "- x\n- y\n- z" c2wCtx.searchResults.length = false)
    ∧ 2 ≤ (extract_citation_indices
            ((stDiverseFallback c2wCtx c2wOracle
                (stDiverseRetry c2wCtx c2wOracle ("- x\n- y\n- z", 0))).1)
            c2wCtx.searchResults.length).length :=
  ⟨⟨rfl, rfl, by decide, by decide⟩,
    (c2_citation_diversity c2wCtx c2wOracle "- x\n- y\n- z" 0 rfl rfl (by decide)
        (by decide)).2.2 0 1
      "- **2026-01-02** alpha news line [1]" "- **2026-01-03** beta news line [2]"
      (by decide) (by decide) (by decide) (by decide) (by decide)
      (by decide) (by decide) (by decide)⟩

/-- Counterexample to C2 as stated: a news turn over one blank-URL
source whose generated text has three bullets and no citations; the
retry repeats it, the per-source fallback summaries are all blank so the
fallback is empty, and the delivered text cites no index at all. -/
theorem c2_diversity_counterexample :
    is_news_query c2Input.userText = true
    ∧ (on_message c2Input).searchResults ≠ []
    ∧ 3 ≤ (bulletLines c2Text).length
    ∧ news_has_diverse_citations c2Text (on_message c2Input).searchResults.length = false
    ∧ (on_message c2Input).reply = c2Text
    ∧ (extract_citation_indices (on_message c2Input).reply
        (on_message c2Input).searchResults.length).length < 2 :=
  ⟨by decide, by decide, by decide, by decide, by decide, by decide⟩

/-- C1 (corrected): on a recency-sensitive news turn with non-empty
results and a stale year in the text, exactly one corrective retry is
issued, and a still-stale retry is replaced by the deterministic
link-listing fallback with no model call at that stage — but the
fallback is not guaranteed to be the final delivered answer: the
subsequent date-format check fires on it (it has no bullet lines) and
replaces it by a fresh model generation that may itself be stale, as
`c1_stale_year_counterexample` shows against the original claim. -/
theorem c1_stale_year_check (ctx : TurnCtx) (oracle : Nat → String) (t : String) (k : Nat)
    (hweb : ctx.toolWeb = true) (hrecent : ctx.isRecentNews = true)
    (hres : ctx.searchResults.isEmpty = false)
    (hstale : contains_stale_year_for_recent ctx.currentYear t = true) :
    stStaleRetry ctx oracle (t, k) = (oracle k, k + 1)
    ∧ (contains_stale_year_for_recent ctx.currentYear (oracle k) = true →
        stStaleFallback ctx (stStaleRetry ctx oracle (t, k)) =
          (build_recent_news_fallback ctx.userText ctx.searchResults, k + 1))
    ∧ (contains_stale_year_for_recent ctx.currentYear (oracle k) = false →
        stStaleFallback ctx (stStaleRetry ctx oracle (t, k)) = (oracle k, k + 1)) := by
  have h1 : stStaleRetry ctx oracle (t, k) = (oracle k, k + 1) := by
    simp [stStaleRetry, hweb, hrecent, hres, hstale]
  refine ⟨h1, ?_, ?_⟩
  · intro h2
    rw [h1]
    simp [stStaleFallback, hweb, hrecent, hres, h2]
  · intro h2
    rw [h1]
    simp [stStaleFallback, hweb, hrecent, hres, h2]

/-- Witness for `c1_stale_year_check`: a concrete recent-news context
whose generation and retry both mention 2020. -/
theorem c1_stale_year_check_witness :
    (c1wCtx.toolWeb = true ∧ c1wCtx.isRecentNews = true
      ∧ c1wCtx.searchResults.isEmpty = false
      ∧ contains_stale_year_for_recent c1wCtx.currentYear c1TextA = true
      ∧ contains_stale_year_for_recent c1wCtx.currentYear (c1wOracle 0) = true)
    ∧ stStaleFallback c1wCtx (stStaleRetry c1wCtx c1wOracle (c1TextA, 0)) =
        (build_recent_news_fallback c1wCtx.userText c1wCtx.searchResults, 1) :=
  ⟨⟨rfl, rfl, by decide, by decide, by decide⟩,
    (c1_stale_year_check c1wCtx c1wOracle c1TextA 0 rfl rfl (by decide)
        (by decide)).2.1 (by decide)⟩

/-- Counterexample to C1 as stated: generation and retry are both stale,
the link-listing fallback is installed, but the date-format retry then
replaces it by a fresh model answer that still contains the stale year —
the final delivered answer neither avoids years ≤ current_year − 1 nor
is the deterministic fallback. -/
theorem c1_stale_year_counterexample :
    is_recent_news_query c1Input.userText = true
    ∧ (on_message c1Input).searchResults ≠ []
    ∧ contains_stale_year_for_recent c1Input.currentYear (c1Input.chat 0) = true
    ∧ contains_stale_year_for_recent c1Input.currentYear (c1Input.chat 1) = true
    ∧ contains_stale_year_for_recent c1Input.currentYear (on_message c1Input).reply = true
    ∧ (on_message c1Input).reply
        ≠ build_recent_news_fallback c1Input.userText (on_message c1Input).searchResults :=
  ⟨by decide, by decide, by decide, by decide, by decide, by decide⟩

/-- C3 (confirmed): with the allowed-date set built from the sources, a
bullet whose extracted date is neither the no-date marker nor an allowed
date makes the grounding check fail and triggers exactly one corrective
retry; membership in the allowed set is exactly being a non-marker
per-source hint value; and a text whose bullet dates all lie in the
allowed set (or are the marker) passes the stage untouched. -/
theorem c3_grounding_check (ctx : TurnCtx) (oracle : Nat → String) (t : String) (k : Nat)
    (srs : List SearchResult) (fps : List FetchedPage)
    (hweb : ctx.toolWeb = true) (hnews : ctx.isNews = true)
    (hres : ctx.searchResults.isEmpty = false)
    (hallow : ctx.allowedDates = (build_source_date_hints srs fps).2)
    (d : String) (hd : d ∈ extract_news_bullet_dates t)
    (hdm : d ≠ noDateMarker) (hdnot : d ∉ ctx.allowedDates) :
    news_dates_grounded_in_sources t ctx.allowedDates = false
    ∧ stGroundRetry ctx oracle (t, k) = (oracle k, k + 1)
    ∧ (∀ s, s ∈ ctx.allowedDates ↔
        (s ≠ noDateMarker ∧ ∃ i, 1 ≤ i ∧ i ≤ max srs.length fps.length
          ∧ hintAt (build_source_date_hints srs fps).1 i = s))
    ∧ (∀ t2, extract_news_bullet_dates t2 ≠ [] →
        (∀ d2 ∈ extract_news_bullet_dates t2,
          d2 = noDateMarker ∨ d2 ∈ ctx.allowedDates) →
        stGroundRetry ctx oracle (t2, k) = (t2, k)) := by
  have hground : news_dates_grounded_in_sources t ctx.allowedDates = false := by
    unfold news_dates_grounded_in_sources
    dsimp only
    rw [if_neg (by simp only [List.isEmpty_iff]; exact List.ne_nil_of_mem hd)]
    rw [Bool.eq_false_iff]
    intro hall
    have hthis := List.all_eq_true.mp hall d hd
    simp at hthis
    rcases hthis with h | h
    · exact hdm h
    · exact hdnot h
  refine ⟨hground, by simp [stGroundRetry, hweb, hnews, hres, hground], ?_, ?_⟩
  · intro s
    rw [hallow]
    exact allowed_dates_mem srs fps s
  · intro t2 hne hall
    have hg : news_dates_grounded_in_sources t2 ctx.allowedDates = true := by
      unfold news_dates_grounded_in_sources
      dsimp only
      rw [if_neg (by simp only [List.isEmpty_iff]; exact hne)]
      rw [List.all_eq_true]
      intro d2 hd2
      rcases hall d2 hd2 with h | h
      · simp [h]
      · simp [h]
    simp [stGroundRetry, hweb, hnews, hres, hg]

/-- Witness for `c3_grounding_check`: one source whose description dates
to 2026-02-18; a bullet dated 2026-02-17 is outside the allowed set and
fires the retry. -/
theorem c3_grounding_check_witness :
    (c3wCtx.toolWeb = true ∧ c3wCtx.isNews = true
      ∧ c3wCtx.searchResults.isEmpty = false
      ∧ c3wCtx.allowedDates = (build_source_date_hints c3wSrs []).2
      ∧ "2026-02-17" ∈ extract_news_bullet_dates "- [2026-02-17] 某事件 [1]"
      ∧ "2026-02-17" ≠ noDateMarker
      ∧ "2026-02-17" ∉ c3wCtx.allowedDates)
    ∧ stGroundRetry c3wCtx (fun _ => "改寫") ("- [2026-02-17] 某事件 [1]", 0)
        = ((fun _ : Nat => "改寫") 0, 1) :=
  ⟨⟨rfl, rfl, by decide, rfl, by decide, by decide, by decide⟩,
    (c3_grounding_check c3wCtx (fun _ => "改寫") "- [2026-02-17] 某事件 [1]" 0 c3wSrs []
        rfl rfl (by decide) rfl "2026-02-17" (by decide) (by decide) (by decide)).2.1⟩

theorem dequeAppend_le (m : Nat) (xs : List DTurn) (x : DTurn) :
    (dequeAppend m xs x).length ≤ m := by
  unfold dequeAppend
  simp only [List.length_drop, List.length_append, List.length_cons]
  omega

theorem foldl_dequeAppend_le (m : Nat) : ∀ (l : List DTurn) (acc : List DTurn),
    acc.length ≤ m → (l.foldl (dequeAppend m) acc).length ≤ m := by
  intro l
  induction l with
  | nil => intro acc h; exact h
  | cons x xs ih => intro acc _; exact ih _ (dequeAppend_le m acc x)

theorem add_turn_grows (cid : Int) (ts role content : String) (store : List String) :
    store <+: add_turn cid ts role content store :=
  List.prefix_append store [turnLine cid ts role content]

theorem afterSearch_window_le (inp : TurnInput) (profile1 : Profile) (window2 : List DTurn)
    (store1 : List String) (tw : Bool) (qf : String) (fc : Bool) (fn : Nat)
    (results : List SearchResult) (sc : Nat) (qu : Option String)
    (h : window2.length ≤ inp.settings.recentTurns * 2) :
    (afterSearch inp profile1 window2 store1 tw qf fc fn results sc qu).window.length
      ≤ inp.settings.recentTurns * 2 := by
  unfold afterSearch
  dsimp only
  repeat' split
  all_goals try dsimp only
  all_goals first | exact h | exact dequeAppend_le _ _ _

theorem afterSearch_store_grows (inp : TurnInput) (profile1 : Profile)
    (window2 : List DTurn) (store1 : List String) (tw : Bool) (qf : String) (fc : Bool)
    (fn : Nat) (results : List SearchResult) (sc : Nat) (qu : Option String) :
    store1 <+: (afterSearch inp profile1 window2 store1 tw qf fc fn results sc qu).store := by
  unfold afterSearch
  dsimp only
  repeat' split
  all_goals try dsimp only
  all_goals first | exact List.prefix_refl _ | exact add_turn_grows _ _ _ _ _

/-- C5 (confirmed): after any turn the recency window holds at most
`recent_turns*2` entries; the durable store only ever grows (the prior
store is a prefix of the new one); and when the reloaded window is at
capacity with a non-empty older part and the summarizer returns a
non-blank summary, the older entries are folded into the profile's
`conversation_summary` and the window shrinks to the retained 6-turn
tail — evicted from the window only. -/
theorem weatherGate_window_le (inp : TurnInput) (profile1 : Profile) (window2 : List DTurn)
    (store1 : List String) (q1 : String) (fc : Bool) (fn : Nat)
    (h : window2.length ≤ inp.settings.recentTurns * 2) :
    (weatherGate inp profile1 window2 store1 q1 fc fn).window.length
      ≤ inp.settings.recentTurns * 2 := by
  unfold weatherGate
  dsimp only
  repeat' split
  all_goals try dsimp only
  all_goals
    first
      | exact dequeAppend_le _ _ _
      | exact afterSearch_window_le _ _ _ _ _ _ _ _ _ _ _ h

theorem weatherGate_store_grows (inp : TurnInput) (profile1 : Profile)
    (window2 : List DTurn) (store1 : List String) (q1 : String) (fc : Bool) (fn : Nat) :
    store1 <+: (weatherGate inp profile1 window2 store1 q1 fc fn).store := by
  unfold weatherGate
  dsimp only
  repeat' split
  all_goals try dsimp only
  all_goals
    first
      | exact add_turn_grows _ _ _ _ _
      | exact afterSearch_store_grows _ _ _ _ _ _ _ _ _ _ _

theorem c5_window_invariant (inp : TurnInput) :
    (on_message inp).window.length ≤ inp.settings.recentTurns * 2
    ∧ inp.store <+: (on_message inp).store
    ∧ (∀ (maxlen : Nat) (sr : String) (w : List DTurn) (p : Profile),
        maxlen ≤ w.length → w.take (w.length - 6) ≠ [] → pyStrip sr ≠ "" →
        fold_recent_to_summary maxlen sr w p =
          (takeLast 6 w, { p with conversationSummary := pyStrip sr },
            some (w.take (w.length - 6)))) := by
  refine ⟨?_, ?_, ?_⟩
  · unfold on_message
    dsimp only
    repeat' split
    all_goals
      first
        | exact afterSearch_window_le _ _ _ _ _ _ _ _ _ _ _
            (foldl_dequeAppend_le _ _ [] (Nat.zero_le _))
        | exact weatherGate_window_le _ _ _ _ _ _ _
            (foldl_dequeAppend_le _ _ [] (Nat.zero_le _))
  · unfold on_message
    dsimp only
    repeat' split
    all_goals
      first
        | exact (add_turn_grows _ _ _ _ _).trans
            (afterSearch_store_grows _ _ _ _ _ _ _ _ _ _ _)
        | exact (add_turn_grows _ _ _ _ _).trans (weatherGate_store_grows _ _ _ _ _ _ _)
  · intro maxlen sr w p h1 h2 h3
    unfold fold_recent_to_summary
    rw [if_pos ⟨h1, h2⟩]
    dsimp only
    rw [if_pos h3]

/-- Witness for `c5_window_invariant` at the concrete news turn
`c2Input` and a window already at capacity 12. -/
theorem c5_window_invariant_witness :
    ((on_message c2Input).window.length ≤ c2Input.settings.recentTurns * 2
      ∧ c2Input.store <+: (on_message c2Input).store)
    ∧ (12 ≤ c5Window.length ∧ c5Window.take (c5Window.length - 6) ≠ []
        ∧ pyStrip "摘要內容" ≠ "")
    ∧ fold_recent_to_summary 12 "摘要內容" c5Window emptyProfile =
        (takeLast 6 c5Window, { emptyProfile with conversationSummary := pyStrip "摘要內容" },
          some (c5Window.take (c5Window.length - 6))) :=
  ⟨⟨(c5_window_invariant c2Input).1, (c5_window_invariant c2Input).2.1⟩,
    ⟨by decide, by decide, by decide⟩,
    (c5_window_invariant c2Input).2.2 12 "摘要內容" c5Window emptyProfile
      (by decide) (by decide) (by decide)⟩

theorem applyUpdates_default (p : Profile) (u : ProfileUpdates) :
    (applyUpdates p u none).defaultWeatherLocation = p.defaultWeatherLocation := by
  rcases u with ⟨l, k⟩
  unfold applyUpdates
  cases l <;> cases k <;> rfl

theorem weatherGate_clarify (inp : TurnInput) (profile1 : Profile) (window2 : List DTurn)
    (store1 : List String) (q1 : String) (fc : Bool) (fn : Nat)
    (hw : is_weather_question inp.userText = true)
    (hloc : extract_tw_location inp.userText = "")
    (hdef : pyStrip profile1.defaultWeatherLocation = "") :
    weatherGate inp profile1 window2 store1 q1 fc fn =
      { reply := clarifyReply,
        store := add_turn inp.chatId inp.tsStr "assistant" clarifyReply store1,
        window := dequeAppend (inp.settings.recentTurns * 2) window2
          ⟨"assistant", clarifyReply⟩,
        profile := profile1, followCtx := inp.cached, searchCalls := 0,
        searchQueryUsed := none, followupN := fn, foldedOlder := none,
        searchResults := [], fetchedPages := [] } := by
  unfold weatherGate
  dsimp only
  rw [hw, hloc, hdef]
  simp

/-- C6 (corrected): a weather question with no extractable location and
no stored default short-circuits to the canned clarification with no
search call and both turns persisted — PROVIDED the message does not
match the follow-up continuation pattern over a news-flagged cached
context: the follow-up branch precedes the weather gate, so such a
message (e.g. `更多3天氣`) reuses the cached evidence and skips the
clarification, refuting the unconditional claim
(`c6_clarify_counterexample`). -/
theorem c6_weather_clarification (inp : TurnInput)
    (hw : is_weather_question inp.userText = true)
    (hloc : extract_tw_location inp.userText = "")
    (hdef : pyStrip inp.profile.defaultWeatherLocation = "")
    (hfu : ¬(is_followup_continue inp.userText = true
        ∧ ∃ c, inp.cached = some c ∧ c.tool = "web_search" ∧ c.isNews = true)) :
    (on_message inp).reply = clarifyReply
    ∧ (on_message inp).searchCalls = 0
    ∧ (on_message inp).searchQueryUsed = none
    ∧ (on_message inp).searchResults = []
    ∧ (on_message inp).fetchedPages = []
    ∧ (on_message inp).store =
        add_turn inp.chatId inp.tsStr "assistant" clarifyReply
          (add_turn inp.chatId inp.tsStr "user" inp.userText inp.store) := by
  have hom : on_message inp =
      weatherGate inp
        (applyUpdates inp.profile (infer_profile_updates inp.userText) none)
        ((recent_turns inp.chatId (inp.settings.recentTurns * 2)
            (add_turn inp.chatId inp.tsStr "user" inp.userText inp.store)).foldl
          (dequeAppend (inp.settings.recentTurns * 2)) [])
        (add_turn inp.chatId inp.tsStr "user" inp.userText inp.store)
        (pyStrip inp.planQuery) false
        (extract_followup_count inp.userText inp.settings.newsFollowupDefault
          inp.settings.newsMaxItems) := by
    unfold on_message
    dsimp only
    cases hif : is_followup_continue inp.userText with
    | false =>
      rw [hw, hloc]
      simp
    | true =>
      cases hcc : inp.cached with
      | none =>
        rw [hw, hloc]
        simp
      | some c =>
        have hcf : (decide (c.tool = "web_search") && c.isNews) = false := by
          by_contra hne
          rw [Bool.not_eq_false, Bool.and_eq_true, decide_eq_true_eq] at hne
          exact hfu ⟨hif, c, hcc, hne.1, hne.2⟩
        rw [hw, hloc]
        simp [hcf]
  rw [hom, weatherGate_clarify inp _ _ _ _ _ _ hw hloc
    (by rw [applyUpdates_default]; exact hdef)]
  exact ⟨rfl, rfl, rfl, rfl, rfl, rfl⟩

/-- Witness for `c6_weather_clarification`: the plain weather question
`天氣如何`. -/
theorem c6_weather_clarification_witness :
    (is_weather_question c6wInput.userText = true
      ∧ extract_tw_location c6wInput.userText = ""
      ∧ pyStrip c6wInput.profile.defaultWeatherLocation = ""
      ∧ is_followup_continue c6wInput.userText = false)
    ∧ (on_message c6wInput).reply = clarifyReply
    ∧ (on_message c6wInput).searchCalls = 0 :=
  ⟨⟨by decide, by decide, rfl, by decide⟩,
    (c6_weather_clarification c6wInput (by decide) (by decide) rfl
      (by rintro ⟨hif, c, hc, -, -⟩; exact absurd hif (by decide))).1,
    (c6_weather_clarification c6wInput (by decide) (by decide) rfl
      (by rintro ⟨hif, c, hc, -, -⟩; exact absurd hif (by decide))).2.1⟩

/-- Counterexample to C6 as stated: `更多3天氣` is a weather question
with no extractable location and no stored default, yet with a
news-flagged cached follow-up context it bypasses the clarification
(the follow-up branch runs first) and reuses the cached fetched pages. -/
theorem c6_clarify_counterexample :
    is_weather_question c6Input.userText = true
    ∧ extract_tw_location c6Input.userText = ""
    ∧ pyStrip c6Input.profile.defaultWeatherLocation = ""
    ∧ (on_message c6Input).reply ≠ clarifyReply
    ∧ (on_message c6Input).fetchedPages ≠ [] :=
  ⟨by decide, by decide, by decide, by decide, by decide⟩

theorem extract_followup_count_le (u : String) (d m : Nat) :
    extract_followup_count u d m ≤ max 1 m := by
  unfold extract_followup_count
  split <;> omega

theorem afterSearch_reuse (inp : TurnInput) (profile1 : Profile) (window2 : List DTurn)
    (store1 : List String) (qf : String) (fn : Nat) (results : List SearchResult)
    (sc : Nat) (qu : Option String) (c : FollowCtx) (hc : inp.cached = some c) :
    (afterSearch inp profile1 window2 store1 true qf true fn results sc qu).searchCalls = sc
    ∧ (afterSearch inp profile1 window2 store1 true qf true fn results sc qu).searchQueryUsed
        = qu
    ∧ (afterSearch inp profile1 window2 store1 true qf true fn results sc qu).followupN = fn
    ∧ (afterSearch inp profile1 window2 store1 true qf true fn results sc qu).searchResults
        = results
    ∧ (afterSearch inp profile1 window2 store1 true qf true fn results sc qu).fetchedPages
        = (if results.isEmpty then [] else c.fetchedPages) := by
  refine ⟨?_, ?_, ?_, ?_, ?_⟩ <;>
    (unfold afterSearch
     rw [hc]
     dsimp only
     by_cases he : results.isEmpty <;>
       simp only [he, Bool.not_true, Bool.not_false, Bool.and_false, Bool.and_true,
         Bool.true_and, Bool.false_and, if_true, if_false] <;>
       (repeat' split) <;> first | rfl | simp_all)

/-- C8 (corrected): a continue/more message over a news-flagged
web-search follow-up context issues no new search call, records no
query, reuses the cached results and pages, and clamps the requested
count into `[1, news_max_items]` — but the count is parsed as the FIRST
1–2 digit integer anywhere in the text, not the trailing integer after
the continue phrase (`c8_followup_counterexample`: `3月之後再多5條`
yields 3, not 5). -/
theorem c8_followup_reuse (inp : TurnInput) (c : FollowCtx)
    (hfu : is_followup_continue inp.userText = true)
    (hc : inp.cached = some c)
    (htool : c.tool = "web_search") (hn : c.isNews = true) :
    (on_message inp).searchCalls = 0
    ∧ (on_message inp).searchQueryUsed = none
    ∧ (on_message inp).searchResults = c.searchResults
    ∧ (on_message inp).fetchedPages =
        (if c.searchResults.isEmpty then [] else c.fetchedPages)
    ∧ (on_message inp).followupN =
        extract_followup_count inp.userText inp.settings.newsFollowupDefault
          inp.settings.newsMaxItems
    ∧ (on_message inp).followupN ≤ max 1 inp.settings.newsMaxItems := by
  obtain ⟨p1, w2, s1, hom⟩ : ∃ p1 w2 s1, on_message inp =
      afterSearch inp p1 w2 s1 true "" true
        (extract_followup_count inp.userText inp.settings.newsFollowupDefault
          inp.settings.newsMaxItems) c.searchResults 0 none := by
    apply Exists.intro
    apply Exists.intro
    apply Exists.intro
    unfold on_message
    dsimp only
    rw [hfu, hc]
    dsimp only
    simp [htool, hn]
    rfl
  have hr := afterSearch_reuse inp p1 w2 s1 ""
    (extract_followup_count inp.userText inp.settings.newsFollowupDefault
      inp.settings.newsMaxItems) c.searchResults 0 none c hc
  rw [hom]
  refine ⟨hr.1, hr.2.1, hr.2.2.2.1, hr.2.2.2.2, hr.2.2.1, ?_⟩
  rw [hr.2.2.1]
  exact extract_followup_count_le _ _ _

/-- Witness for `c8_followup_reuse`: `繼續 更多5` over the news-flagged
cached context, where the parsed count is the trailing 5. -/
theorem c8_followup_reuse_witness :
    (is_followup_continue c8wInput.userText = true
      ∧ c8wInput.cached = some c6Cached
      ∧ c6Cached.tool = "web_search" ∧ c6Cached.isNews = true)
    ∧ (on_message c8wInput).searchCalls = 0
    ∧ (on_message c8wInput).searchResults = c6Cached.searchResults
    ∧ (on_message c8wInput).followupN =
        extract_followup_count c8wInput.userText c8wInput.settings.newsFollowupDefault
          c8wInput.settings.newsMaxItems :=
  ⟨⟨by decide, rfl, rfl, rfl⟩,
    (c8_followup_reuse c8wInput c6Cached (by decide) rfl rfl rfl).1,
    (c8_followup_reuse c8wInput c6Cached (by decide) rfl rfl rfl).2.2.1,
    (c8_followup_reuse c8wInput c6Cached (by decide) rfl rfl rfl).2.2.2.2.1⟩

/-- Counterexample to C8 as stated: `3月之後再多5條` matches the
continue pattern with trailing count 5, but the parsed requested count
is 3 — the first integer in the text (`3月`), not the trailing one. -/
theorem c8_followup_counterexample :
    is_followup_continue c8Input.userText = true
    ∧ c8Input.cached = some c6Cached
    ∧ c6Cached.tool = "web_search"
    ∧ c6Cached.isNews = true
    ∧ containsSub c8Input.userText "再多5" = true
    ∧ (on_message c8Input).searchCalls = 0
    ∧ (on_message c8Input).followupN = 3 :=
  ⟨by decide, rfl, rfl, rfl, by decide, by decide, by decide⟩
